import Mathlib

/-!
# Verification of the PolkaVM interpreter core

A shallow embedding of `crates/polkavm/src/interpreter.rs`: the interpreted
instance state, the memory model, the gas accountant, the instruction visitor
and the fetch-execute loop, together with theorems checking the
natural-language specification against the code.

Machine integers are modelled as `Nat` (for `u32` values, reduced modulo
`2^32` exactly where the Rust code wraps) and `Int` (for the signed `i64`
gas counter).  Guest memory buffers are `List Nat` of byte values.
Rust panics (`expect`, out-of-bounds indexing, `copy_from_slice` length
mismatches) are modelled as `Option.none` at the outermost layer, kept
distinct from guest `Trap`s.
-/

/-- `2^32`, the modulus of the guest's 32-bit arithmetic. -/
def U32 : Nat := 4294967296

/-- `2^63` as an integer, bound of the `i64` gas counter. -/
def I64HALF : Int := 9223372036854775808

/-- `2^64` as an integer. -/
def I64SIZE : Int := 18446744073709551616

/-- Reinterpret a `u32` bit pattern (a `Nat` below `2^32`) as a signed `i32`. -/
def toInt32 (n : Nat) : Int := if n < 2147483648 then (n : Int) else (n : Int) - 4294967296

/-- Truncate an integer to a `u32` bit pattern (two's complement). -/
def toU32 (i : Int) : Nat := (i % (4294967296 : Int)).toNat

/-- Wrap an integer into the `i64` range, as Rust release-mode `i64`
arithmetic does. -/
def wrap64 (x : Int) : Int := (x + I64HALF) % I64SIZE - I64HALF

/-- Rust `u64 as i64`: reinterpret an unsigned 64-bit value as signed. -/
def i64cast (n : Nat) : Int :=
  if (n : Int) % I64SIZE < I64HALF then (n : Int) % I64SIZE else (n : Int) % I64SIZE - I64SIZE

/-- `u32::wrapping_add`. -/
def wrappingAdd (a b : Nat) : Nat := (a + b) % U32

/-- `u32::wrapping_sub`. -/
def wrappingSub (a b : Nat) : Nat := toU32 ((a : Int) - (b : Int))

/-- `u32::wrapping_mul`. -/
def wrappingMul (a b : Nat) : Nat := (a * b) % U32

/-- `u32::wrapping_shl`: the shift amount is masked to its low 5 bits. -/
def wrappingShl (a b : Nat) : Nat := (a <<< (b % 32)) % U32

/-- `u32::wrapping_shr`: the shift amount is masked to its low 5 bits. -/
def wrappingShr (a b : Nat) : Nat := a >>> (b % 32)

/-- `i32::wrapping_shr` on a `u32` bit pattern: mask the amount to 5 bits,
then shift arithmetically (floor division by a power of two). -/
def arithShr (a b : Nat) : Nat := toU32 (Int.fdiv (toInt32 a) ((2 : Int) ^ (b % 32)))

/-- Modelled from the spec: the `VM_ADDR_RETURN_TO_HOST` sentinel constant of
`polkavm_common::abi` (not part of the sources in scope); "the 32-bit
constant `RETURN_TO_HOST` (fixed by the guest ABI)". -/
def VM_ADDR_RETURN_TO_HOST : Nat := 0xffff0000

/-- Modelled from the spec: the `VM_CODE_ADDRESS_ALIGNMENT` constant of
`polkavm_common::abi` (not part of the sources in scope); "a fixed power of
two (from the guest ABI)". -/
def VM_CODE_ADDRESS_ALIGNMENT : Nat := 2

/-- The observable error kinds of `ExecutionError` the interpreter produces:
a guest `Trap` or gas exhaustion. -/
inductive ExecutionError where
  | trap
  | outOfGas
deriving DecidableEq

/-- Observer invocations recorded during execution: the `on_set_reg`
callback (invoked by `Visitor::set`) and the `on_store` callback (invoked
by `Visitor::store`). -/
inductive Event where
  | setReg (reg : Nat) (value : Nat)
  | store (address : Nat) (bytes : List Nat)
deriving DecidableEq

/-- Actions a host callback may perform through the access handle during
`ecalli`: write a register or consume gas. -/
inductive HostAction where
  | setReg (reg : Nat) (value : Nat)
  | consumeGas (amount : Nat)
deriving DecidableEq

/-- The guest memory layout: three address ranges `[start, start+size)` for
the read-only data, the heap and the stack. -/
structure MemoryConfig where
  roStart : Nat
  roSize : Nat
  heapStart : Nat
  heapSize : Nat
  stackStart : Nat
  stackSize : Nat
deriving DecidableEq

/-- `Range::contains` on a `[start, start+size)` address range. -/
def rangeContains (start size a : Nat) : Bool :=
  decide (start ≤ a) && decide (a < start + size)

/-- The module data the interpreter consumes: combines the fields of
`InterpretedModule` (instructions, `ro_data`, `rw_data`, per-block gas
costs) with the `VmModule` accessors it calls (`memory_config`,
`gas_metering`, the basic-block and jump-table maps, and the export
table). -/
structure VmModule where
  memoryConfig : MemoryConfig
  roData : List Nat
  rwData : List Nat
  gasCostForBasicBlock : List Nat
  gasMetering : Bool
  instructionByBasicBlock : Nat → Option Nat
  basicBlockByJumpTableIndex : Nat → Option Nat
  jumpTableIndexByBasicBlock : Nat → Option Nat
  exports : List Nat

/-- The caller-supplied `ExecutionConfig`. -/
structure ExecutionConfig where
  initialRegs : List Nat
  gas : Option Nat
  resetMemoryAfterExecution : Bool

/-- The mutable state of `InterpretedInstance` (the `module` handle is kept
as a separate argument since it is immutable and shared). -/
structure InterpretedInstance where
  heap : List Nat
  stack : List Nat
  regs : List Nat
  nthInstruction : Nat
  nthBasicBlock : Nat
  returnToHost : Bool
  cycleCounter : Nat
  gasRemaining : Option Int
  inNewExecution : Bool
deriving DecidableEq

/-- `InterpreterContext`: the three optional host callbacks.  Callbacks are
modelled as pure deterministic functions; `Bool` results encode
`Ok`/`Trap`.  A hostcall maps its immediate to the list of access-handle
actions the host performs plus its `Ok`/`Trap` result. -/
structure InterpreterContext where
  onHostcall : Option (Nat → List HostAction × Bool)
  onSetReg : Option (Nat → Nat → Bool)
  onStore : Option (Nat → List Nat → Bool)

/-- The result of one interpreter operation: the (possibly mutated) instance,
the observer invocations it performed, and `none` for success or the
`ExecutionError` it returned.  Mirrors Rust, where `&mut self` persists
across an `Err` return. -/
structure StepOut where
  inst : InterpretedInstance
  events : List Event
  error : Option ExecutionError
deriving DecidableEq

/-- Rust `slice::get(offset..offset+length)`: `some` iff the range is within
bounds. -/
def sliceGet (xs : List Nat) (offset length : Nat) : Option (List Nat) :=
  if offset + length ≤ xs.length then some ((xs.drop offset).take length) else none

/-- `InterpretedInstance::get_memory_slice`: resolve a read of `length` bytes
at `address` against the read-only region, then the heap, then the stack. -/
def InterpretedInstance.getMemorySlice (module : VmModule) (st : InterpretedInstance)
    (address length : Nat) : Option (List Nat) :=
  let mc := module.memoryConfig
  if rangeContains mc.roStart mc.roSize address then
    sliceGet module.roData (address - mc.roStart) length
  else if rangeContains mc.heapStart mc.heapSize address then
    sliceGet st.heap (address - mc.heapStart) length
  else if rangeContains mc.stackStart mc.stackSize address then
    sliceGet st.stack (address - mc.stackStart) length
  else
    none

/-- Overwrite `mem[offset .. offset+bytes.length)` with `bytes`
(`slice::copy_from_slice` after a successful `get_mut`). -/
def writeBytes (mem : List Nat) (offset : Nat) (bytes : List Nat) : List Nat :=
  mem.take offset ++ (bytes ++ mem.drop (offset + bytes.length))

/-- `InterpretedInstance::get_memory_slice_mut` followed by
`copy_from_slice`: a write resolves against the heap, then the stack; the
read-only region is not consulted. -/
def InterpretedInstance.storeToMemory (module : VmModule) (st : InterpretedInstance)
    (address : Nat) (bytes : List Nat) : Option InterpretedInstance :=
  let mc := module.memoryConfig
  if rangeContains mc.heapStart mc.heapSize address then
    let offset := address - mc.heapStart
    if offset + bytes.length ≤ st.heap.length then
      some { st with heap := writeBytes st.heap offset bytes }
    else none
  else if rangeContains mc.stackStart mc.stackSize address then
    let offset := address - mc.stackStart
    if offset + bytes.length ≤ st.stack.length then
      some { st with stack := writeBytes st.stack offset bytes }
    else none
  else
    none

/-- `InterpretedInstance::on_start_new_basic_block`: with gas metering,
subtract the entered block's cost from `gas_remaining` and yield `OutOfGas`
when the result is negative.  `none` models the panic on a missing cost
entry. -/
def InterpretedInstance.onStartNewBasicBlock (module : VmModule)
    (st : InterpretedInstance) : Option StepOut :=
  match st.gasRemaining with
  | none => some ⟨st, [], none⟩
  | some g =>
    match module.gasCostForBasicBlock.get? st.nthBasicBlock with
    | none => none
    | some cost =>
      let g2 := wrap64 (g - (cost : Int))
      some ⟨{ st with gasRemaining := some g2 }, [],
            if g2 < 0 then some ExecutionError.outOfGas else none⟩

/-- `InterpretedInstance::check_gas`, as the error it would return. -/
def InterpretedInstance.checkGasError (st : InterpretedInstance) : Option ExecutionError :=
  match st.gasRemaining with
  | none => none
  | some g => if g < 0 then some ExecutionError.outOfGas else none

/-- `InterpretedInstance::reset_memory`: rebuild the heap from `rw_data`
resized with zeroes to `heap_size`, and the stack as `stack_size` zeroes. -/
def InterpretedInstance.resetMemory (module : VmModule) (st : InterpretedInstance) :
    InterpretedInstance :=
  { st with
    heap := (module.rwData.take module.memoryConfig.heapSize) ++
      List.replicate (module.memoryConfig.heapSize - module.rwData.length) 0
    stack := List.replicate module.memoryConfig.stackSize 0 }

/-- `InterpretedInstance::prepare_for_call`: resolve the export, seed the
registers and program counters, seed `gas_remaining` from the configured
budget when the module is gas-metered (clearing it when not), and raise
`in_new_execution`.  `none` models the panics on an invalid export, a
missing first instruction, or a register-count mismatch. -/
def InterpretedInstance.prepareForCall (module : VmModule) (exportIndex : Nat)
    (config : ExecutionConfig) (st : InterpretedInstance) : Option InterpretedInstance :=
  match module.exports.get? exportIndex with
  | none => none
  | some bb =>
    match module.instructionByBasicBlock bb with
    | none => none
    | some ni =>
      if config.initialRegs.length = st.regs.length then
        some { st with
          returnToHost := false
          regs := config.initialRegs
          nthInstruction := ni
          nthBasicBlock := bb
          gasRemaining :=
            if module.gasMetering then
              match config.gas with
              | some g => some (i64cast g)
              | none => st.gasRemaining
            else none
          inNewExecution := true }
      else none

/-- `InterpretedAccess::get_reg`. -/
def InterpretedAccess.getReg (st : InterpretedInstance) (reg : Nat) : Nat :=
  st.regs.getD reg 0

/-- `InterpretedAccess::set_reg`: a direct register write; note that it does
not invoke the `on_set_reg` observer (the access handle has no reference to
the interpreter context). -/
def InterpretedAccess.setReg (st : InterpretedInstance) (reg value : Nat) :
    InterpretedInstance :=
  { st with regs := st.regs.set reg value }

/-- `InterpretedAccess::consume_gas`:
`checked_sub_unsigned(gas).unwrap_or(-1)` — subtract, clamping any `i64`
underflow to `-1`; a no-op when gas metering is disabled. -/
def InterpretedAccess.consumeGas (st : InterpretedInstance) (amount : Nat) :
    InterpretedInstance :=
  match st.gasRemaining with
  | none => st
  | some g =>
    let g2 : Int := if g - (amount : Int) < -I64HALF then -1 else g - (amount : Int)
    { st with gasRemaining := some g2 }

/-- Apply one access-handle action performed by a host callback. -/
def applyHostAction (st : InterpretedInstance) (a : HostAction) : InterpretedInstance :=
  match a with
  | HostAction.setReg r v => InterpretedAccess.setReg st r v
  | HostAction.consumeGas n => InterpretedAccess.consumeGas st n

/-- Apply a host callback's access-handle actions in order. -/
def runHostActions (st : InterpretedInstance) : List HostAction → InterpretedInstance
  | [] => st
  | a :: rest => runHostActions (applyHostAction st a) rest

/-- `RegImm`: an operand that is either a register index or an immediate. -/
inductive RegImm where
  | reg (r : Nat)
  | imm (v : Nat)
deriving DecidableEq

/-- `Visitor::get`: read a register or return the immediate. -/
def Visitor.vget (st : InterpretedInstance) : RegImm → Nat
  | RegImm.reg r => st.regs.getD r 0
  | RegImm.imm v => v

/-- `Visitor::set`: write the register, then invoke the `on_set_reg`
observer when installed; an observer failure is a `Trap` (the register
keeps its new value). -/
def Visitor.vset (ctx : InterpreterContext) (st : InterpretedInstance)
    (dst value : Nat) : StepOut :=
  let st2 := { st with regs := st.regs.set dst value }
  match ctx.onSetReg with
  | none => ⟨st2, [], none⟩
  | some f =>
    ⟨st2, [Event.setReg dst value], if f dst value then none else some ExecutionError.trap⟩

/-- `Visitor::set3`: read both operands, write `f s1 s2` to `d`, then
advance `nth_instruction` (only on success of the register write). -/
def Visitor.set3 (ctx : InterpreterContext) (st : InterpretedInstance)
    (d : Nat) (s1 s2 : RegImm) (f : Nat → Nat → Nat) : StepOut :=
  let a := Visitor.vget st s1
  let b := Visitor.vget st s2
  let o := Visitor.vset ctx st d (f a b)
  match o.error with
  | some _ => o
  | none => ⟨{ o.inst with nthInstruction := o.inst.nthInstruction + 1 }, o.events, none⟩

/-- `Visitor::branch`: evaluate the comparison; when taken redirect to
`target` (resolving its first instruction), otherwise fall through to the
next block; either way the new-basic-block hook runs. -/
def Visitor.branch (module : VmModule) (st : InterpretedInstance)
    (s1 s2 : RegImm) (target : Nat) (f : Nat → Nat → Bool) : Option StepOut :=
  let a := Visitor.vget st s1
  let b := Visitor.vget st s2
  if f a b then
    match module.instructionByBasicBlock target with
    | none => none
    | some ni =>
      InterpretedInstance.onStartNewBasicBlock module
        { st with nthInstruction := ni, nthBasicBlock := target }
  else
    InterpretedInstance.onStartNewBasicBlock module
      { st with nthInstruction := st.nthInstruction + 1,
                nthBasicBlock := st.nthBasicBlock + 1 }

/-- The `LoadTy` instances: load widths and signedness. -/
inductive LoadKind where
  | u8
  | i8
  | u16
  | i16
  | u32
deriving DecidableEq

/-- The byte width of a load (`core::mem::size_of::<T>()`). -/
def LoadKind.size : LoadKind → Nat
  | LoadKind.u8 => 1
  | LoadKind.i8 => 1
  | LoadKind.u16 => 2
  | LoadKind.i16 => 2
  | LoadKind.u32 => 4

/-- `LoadTy::from_slice` for each instance: assemble the little-endian
value and zero- or sign-extend it to 32 bits. -/
def LoadKind.fromSlice : LoadKind → List Nat → Nat
  | LoadKind.u8, xs => xs.getD 0 0
  | LoadKind.i8, xs =>
    let b := xs.getD 0 0
    if b < 128 then b else b + (U32 - 256)
  | LoadKind.u16, xs => xs.getD 0 0 + 256 * xs.getD 1 0
  | LoadKind.i16, xs =>
    let v := xs.getD 0 0 + 256 * xs.getD 1 0
    if v < 32768 then v else v + (U32 - 65536)
  | LoadKind.u32, xs =>
    xs.getD 0 0 + 256 * xs.getD 1 0 + 65536 * xs.getD 2 0 + 16777216 * xs.getD 3 0

/-- The `StoreTy` instances: store widths. -/
inductive StoreKind where
  | u8
  | u16
  | u32
deriving DecidableEq

/-- The byte width of a store. -/
def StoreKind.size : StoreKind → Nat
  | StoreKind.u8 => 1
  | StoreKind.u16 => 2
  | StoreKind.u32 => 4

/-- `StoreTy::into_bytes` for each instance: truncate the value to the
store width and serialize it little-endian. -/
def StoreKind.intoBytes : StoreKind → Nat → List Nat
  | StoreKind.u8, v => [v % 256]
  | StoreKind.u16, v => [v % 256, v / 256 % 256]
  | StoreKind.u32, v => [v % 256, v / 256 % 256, v / 65536 % 256, v / 16777216 % 256]

/-- The load kind matching a store kind's width, unsigned. -/
def StoreKind.unsignedLoad : StoreKind → LoadKind
  | StoreKind.u8 => LoadKind.u8
  | StoreKind.u16 => LoadKind.u16
  | StoreKind.u32 => LoadKind.u32

/-- The effective address of a load or store:
`base.map_or(0, |base| regs[base]).wrapping_add(offset)`. -/
def effectiveAddress (regs : List Nat) (base : Option Nat) (offset : Nat) : Nat :=
  ((match base with
    | none => 0
    | some b => regs.getD b 0) + offset) % U32

/-- `Visitor::load`: resolve the addressed bytes (Trap when out of range,
leaving the state untouched), convert them per the load kind, write the
destination register, and advance `nth_instruction`. -/
def Visitor.load (ctx : InterpreterContext) (module : VmModule) (st : InterpretedInstance)
    (k : LoadKind) (dst : Nat) (base : Option Nat) (offset : Nat) : StepOut :=
  let address := effectiveAddress st.regs base offset
  match InterpretedInstance.getMemorySlice module st address k.size with
  | none => ⟨st, [], some ExecutionError.trap⟩
  | some bytes =>
    let o := Visitor.vset ctx st dst (k.fromSlice bytes)
    match o.error with
    | some _ => o
    | none => ⟨{ o.inst with nthInstruction := o.inst.nthInstruction + 1 }, o.events, none⟩

/-- `Visitor::store`: serialize the source value, write it to memory (Trap
when out of range, leaving the state untouched), invoke the `on_store`
observer when installed (its failure is a Trap after the bytes were
written), and advance `nth_instruction`. -/
def Visitor.store (ctx : InterpreterContext) (module : VmModule) (st : InterpretedInstance)
    (k : StoreKind) (src : RegImm) (base : Option Nat) (offset : Nat) : StepOut :=
  let address := effectiveAddress st.regs base offset
  let value := Visitor.vget st src
  let bytes := k.intoBytes value
  match InterpretedInstance.storeToMemory module st address bytes with
  | none => ⟨st, [], some ExecutionError.trap⟩
  | some st2 =>
    match ctx.onStore with
    | none => ⟨{ st2 with nthInstruction := st2.nthInstruction + 1 }, [], none⟩
    | some f =>
      if f address bytes then
        ⟨{ st2 with nthInstruction := st2.nthInstruction + 1 },
         [Event.store address bytes], none⟩
      else
        ⟨st2, [Event.store address bytes], some ExecutionError.trap⟩

/-- `Visitor::get_return_address`: the jump-table index of the next basic
block, scaled by the code-address alignment; `none` models the panic when
the next block is not in the jump table. -/
def Visitor.getReturnAddress (module : VmModule) (st : InterpretedInstance) : Option Nat :=
  match module.jumpTableIndexByBasicBlock (st.nthBasicBlock + 1) with
  | none => none
  | some j => some (j * VM_CODE_ADDRESS_ALIGNMENT)

/-- `Visitor::dynamic_jump`: compute `target = regs[base].wrapping_add(offset)`;
for a call, first write the return address.  Then, in order: the
`RETURN_TO_HOST` sentinel sets `return_flag`; target `0` traps; a
misaligned target traps; a target absent from the jump table traps;
otherwise redirect to the resolved basic block and run the
new-basic-block hook. -/
def Visitor.dynamicJump (module : VmModule) (ctx : InterpreterContext)
    (call : Option (Nat × Nat)) (base offset : Nat) (st : InterpretedInstance) :
    Option StepOut :=
  let target := (st.regs.getD base 0 + offset) % U32
  let o1 : StepOut :=
    match call with
    | none => ⟨st, [], none⟩
    | some (ra, retAddr) => Visitor.vset ctx st ra retAddr
  match o1.error with
  | some _ => some o1
  | none =>
    let st1 := o1.inst
    if target = VM_ADDR_RETURN_TO_HOST then
      some ⟨{ st1 with returnToHost := true }, o1.events, none⟩
    else if target = 0 then
      some ⟨st1, o1.events, some ExecutionError.trap⟩
    else if target % VM_CODE_ADDRESS_ALIGNMENT ≠ 0 then
      some ⟨st1, o1.events, some ExecutionError.trap⟩
    else
      match module.basicBlockByJumpTableIndex (target / VM_CODE_ADDRESS_ALIGNMENT) with
      | none => some ⟨st1, o1.events, some ExecutionError.trap⟩
      | some bb =>
        match module.instructionByBasicBlock bb with
        | none => none
        | some ni =>
          (InterpretedInstance.onStartNewBasicBlock module
              { st1 with nthBasicBlock := bb, nthInstruction := ni }).map
            (fun o2 => ⟨o2.inst, o1.events ++ o2.events, o2.error⟩)

/-- `InstructionVisitor::jump`: redirect to `target` (resolving its first
instruction; `none` models the panic on failure) and run the
new-basic-block hook. -/
def Visitor.jump (module : VmModule) (target : Nat) (st : InterpretedInstance) :
    Option StepOut :=
  match module.instructionByBasicBlock target with
  | none => none
  | some ni =>
    InterpretedInstance.onStartNewBasicBlock module
      { st with nthBasicBlock := target, nthInstruction := ni }

/-- `InstructionVisitor::fallthrough`: advance to the next instruction and
block, then run the new-basic-block hook. -/
def Visitor.fallthrough (module : VmModule) (st : InterpretedInstance) : Option StepOut :=
  InterpretedInstance.onStartNewBasicBlock module
    { st with nthInstruction := st.nthInstruction + 1,
              nthBasicBlock := st.nthBasicBlock + 1 }

/-- `InstructionVisitor::ecalli`: Trap when no hostcall handler is
installed; otherwise run the host callback's access-handle actions, Trap
on its error, and on success advance `nth_instruction` and check for
out-of-gas (the callback may have consumed gas). -/
def Visitor.ecalli (ctx : InterpreterContext) (imm : Nat) (st : InterpretedInstance) :
    StepOut :=
  match ctx.onHostcall with
  | none => ⟨st, [], some ExecutionError.trap⟩
  | some f =>
    let actions := (f imm).1
    let ok := (f imm).2
    let st1 := runHostActions st actions
    if ok then
      let st2 := { st1 with nthInstruction := st1.nthInstruction + 1 }
      ⟨st2, [], InterpretedInstance.checkGasError st2⟩
    else
      ⟨st1, [], some ExecutionError.trap⟩

/-- `InstructionVisitor::call`: write the return address into `ra`, then
perform the static jump. -/
def Visitor.call (module : VmModule) (ctx : InterpreterContext)
    (ra target : Nat) (st : InterpretedInstance) : Option StepOut :=
  match Visitor.getReturnAddress module st with
  | none => none
  | some retAddr =>
    let o := Visitor.vset ctx st ra retAddr
    match o.error with
    | some _ => some o
    | none =>
      (Visitor.jump module target o.inst).map
        (fun o2 => ⟨o2.inst, o.events ++ o2.events, o2.error⟩)

/-- `InstructionVisitor::call_indirect`: compute the return address, then
perform the dynamic jump with the register write. -/
def Visitor.callIndirect (module : VmModule) (ctx : InterpreterContext)
    (ra base offset : Nat) (st : InterpretedInstance) : Option StepOut :=
  match Visitor.getReturnAddress module st with
  | none => none
  | some retAddr => Visitor.dynamicJump module ctx (some (ra, retAddr)) base offset st

/-- `InstructionVisitor::jump_indirect`. -/
def Visitor.jumpIndirect (module : VmModule) (ctx : InterpreterContext)
    (base offset : Nat) (st : InterpretedInstance) : Option StepOut :=
  Visitor.dynamicJump module ctx none base offset st

/-- Modelled from the spec: `divu` of `polkavm_common::operation` (not in
the sources in scope); "division by zero returns 0xFFFFFFFF (unsigned)". -/
def divu (s1 s2 : Nat) : Nat := if s2 = 0 then U32 - 1 else s1 / s2

/-- Modelled from the spec: `remu` of `polkavm_common::operation` (not in
the sources in scope); RISC-V-like remainder, returning the dividend when
the divisor is zero. -/
def remu (s1 s2 : Nat) : Nat := if s2 = 0 then s1 else s1 % s2

/-- Modelled from the spec: signed `div` of `polkavm_common::operation`;
"division by zero returns −1 (signed); signed overflow (INT_MIN / −1)
returns INT_MIN; other cases are ordinary two's-complement division"
(truncating toward zero). -/
def idiv (s1 s2 : Nat) : Nat :=
  let a := toInt32 s1
  let b := toInt32 s2
  if b = 0 then toU32 (-1)
  else if a = -2147483648 ∧ b = -1 then s1
  else toU32 (Int.tdiv a b)

/-- Modelled from the spec: signed `rem` of `polkavm_common::operation`;
signed overflow (INT_MIN % −1) returns 0, division by zero returns the
dividend (RISC-V-like), otherwise truncated remainder. -/
def irem (s1 s2 : Nat) : Nat :=
  let a := toInt32 s1
  let b := toInt32 s2
  if b = 0 then s1
  else if a = -2147483648 ∧ b = -1 then 0
  else toU32 (Int.tmod a b)

/-- Modelled from the spec: `mulh` of `polkavm_common::operation`; "the
high 32 bits of the 64-bit product", both operands signed. -/
def mulh (s1 s2 : Nat) : Nat := toU32 (Int.fdiv (toInt32 s1 * toInt32 s2) 4294967296)

/-- Modelled from the spec: `mulhu` of `polkavm_common::operation`; the
high 32 bits of the unsigned 64-bit product. -/
def mulhu (s1 s2 : Nat) : Nat := s1 * s2 / U32

/-- Modelled from the spec: `mulhsu` of `polkavm_common::operation`; the
high 32 bits of the product of a signed and an unsigned operand. -/
def mulhsu (s1 s2 : Nat) : Nat := toU32 (Int.fdiv (toInt32 s1 * (s2 : Nat)) 4294967296)

/-- `u32::from(bool)`. -/
def boolToU32 (b : Bool) : Nat := if b then 1 else 0

/-- The decoded instruction records, mirroring the `InstructionVisitor`
methods the interpreter implements (the enum itself lives in
`polkavm_common::program`).  Register operands are register indices. -/
inductive Instruction where
  | trap
  | fallthrough
  | ecalli (imm : Nat)
  | set_less_than_unsigned (d s1 s2 : Nat)
  | set_less_than_signed (d s1 s2 : Nat)
  | shift_logical_right (d s1 s2 : Nat)
  | shift_arithmetic_right (d s1 s2 : Nat)
  | shift_logical_left (d s1 s2 : Nat)
  | xor (d s1 s2 : Nat)
  | and (d s1 s2 : Nat)
  | or (d s1 s2 : Nat)
  | add (d s1 s2 : Nat)
  | sub (d s1 s2 : Nat)
  | negate_and_add_imm (d s1 : Nat) (s2 : Nat)
  | mul (d s1 s2 : Nat)
  | mul_imm (d s1 : Nat) (s2 : Nat)
  | mul_upper_signed_signed (d s1 s2 : Nat)
  | mul_upper_signed_signed_imm (d s1 : Nat) (s2 : Nat)
  | mul_upper_unsigned_unsigned (d s1 s2 : Nat)
  | mul_upper_unsigned_unsigned_imm (d s1 : Nat) (s2 : Nat)
  | mul_upper_signed_unsigned (d s1 s2 : Nat)
  | div_unsigned (d s1 s2 : Nat)
  | div_signed (d s1 s2 : Nat)
  | rem_unsigned (d s1 s2 : Nat)
  | rem_signed (d s1 s2 : Nat)
  | set_less_than_unsigned_imm (d s1 : Nat) (s2 : Nat)
  | set_greater_than_unsigned_imm (d s1 : Nat) (s2 : Nat)
  | set_less_than_signed_imm (d s1 : Nat) (s2 : Nat)
  | set_greater_than_signed_imm (d s1 : Nat) (s2 : Nat)
  | shift_logical_right_imm (d s1 : Nat) (s2 : Nat)
  | shift_logical_right_imm_alt (d s2 : Nat) (s1 : Nat)
  | shift_arithmetic_right_imm (d s1 : Nat) (s2 : Nat)
  | shift_arithmetic_right_imm_alt (d s2 : Nat) (s1 : Nat)
  | shift_logical_left_imm (d s1 : Nat) (s2 : Nat)
  | shift_logical_left_imm_alt (d s2 : Nat) (s1 : Nat)
  | or_imm (d s1 : Nat) (s2 : Nat)
  | and_imm (d s1 : Nat) (s2 : Nat)
  | xor_imm (d s1 : Nat) (s2 : Nat)
  | load_imm (dst : Nat) (imm : Nat)
  | move_reg (d s : Nat)
  | cmov_if_zero (d s c : Nat)
  | cmov_if_not_zero (d s c : Nat)
  | add_imm (d s1 : Nat) (s2 : Nat)
  | store_imm_u8 (value offset : Nat)
  | store_imm_u16 (value offset : Nat)
  | store_imm_u32 (value offset : Nat)
  | store_imm_indirect_u8 (base offset value : Nat)
  | store_imm_indirect_u16 (base offset value : Nat)
  | store_imm_indirect_u32 (base offset value : Nat)
  | store_indirect_u8 (src base offset : Nat)
  | store_indirect_u16 (src base offset : Nat)
  | store_indirect_u32 (src base offset : Nat)
  | store_u8 (src offset : Nat)
  | store_u16 (src offset : Nat)
  | store_u32 (src offset : Nat)
  | load_u8 (dst offset : Nat)
  | load_i8 (dst offset : Nat)
  | load_u16 (dst offset : Nat)
  | load_i16 (dst offset : Nat)
  | load_u32 (dst offset : Nat)
  | load_indirect_u8 (dst base offset : Nat)
  | load_indirect_i8 (dst base offset : Nat)
  | load_indirect_u16 (dst base offset : Nat)
  | load_indirect_i16 (dst base offset : Nat)
  | load_indirect_u32 (dst base offset : Nat)
  | branch_less_unsigned (s1 s2 i : Nat)
  | branch_less_unsigned_imm (s1 : Nat) (s2 i : Nat)
  | branch_less_signed (s1 s2 i : Nat)
  | branch_less_signed_imm (s1 : Nat) (s2 i : Nat)
  | branch_eq (s1 s2 i : Nat)
  | branch_eq_imm (s1 : Nat) (s2 i : Nat)
  | branch_not_eq (s1 s2 i : Nat)
  | branch_not_eq_imm (s1 : Nat) (s2 i : Nat)
  | branch_greater_or_equal_unsigned (s1 s2 i : Nat)
  | branch_greater_or_equal_unsigned_imm (s1 : Nat) (s2 i : Nat)
  | branch_greater_or_equal_signed (s1 s2 i : Nat)
  | branch_greater_or_equal_signed_imm (s1 : Nat) (s2 i : Nat)
  | branch_less_or_equal_unsigned_imm (s1 : Nat) (s2 i : Nat)
  | branch_less_or_equal_signed_imm (s1 : Nat) (s2 i : Nat)
  | branch_greater_unsigned_imm (s1 : Nat) (s2 i : Nat)
  | branch_greater_signed_imm (s1 : Nat) (s2 i : Nat)
  | jump (target : Nat)
  | jump_indirect (base offset : Nat)
  | call (ra target : Nat)
  | call_indirect (ra base offset : Nat)

/-- `Instruction::visit`: dispatch one decoded instruction to its visitor
method. -/
def Instruction.visit (module : VmModule) (ctx : InterpreterContext)
    (st : InterpretedInstance) : Instruction → Option StepOut
  | Instruction.trap => some ⟨st, [], some ExecutionError.trap⟩
  | Instruction.fallthrough => Visitor.fallthrough module st
  | Instruction.ecalli imm => some (Visitor.ecalli ctx imm st)
  | Instruction.set_less_than_unsigned d s1 s2 =>
    some (Visitor.set3 ctx st d (RegImm.reg s1) (RegImm.reg s2)
      (fun a b => boolToU32 (decide (a < b))))
  | Instruction.set_less_than_signed d s1 s2 =>
    some (Visitor.set3 ctx st d (RegImm.reg s1) (RegImm.reg s2)
      (fun a b => boolToU32 (decide (toInt32 a < toInt32 b))))
  | Instruction.shift_logical_right d s1 s2 =>
    some (Visitor.set3 ctx st d (RegImm.reg s1) (RegImm.reg s2) wrappingShr)
  | Instruction.shift_arithmetic_right d s1 s2 =>
    some (Visitor.set3 ctx st d (RegImm.reg s1) (RegImm.reg s2) arithShr)
  | Instruction.shift_logical_left d s1 s2 =>
    some (Visitor.set3 ctx st d (RegImm.reg s1) (RegImm.reg s2) wrappingShl)
  | Instruction.xor d s1 s2 =>
    some (Visitor.set3 ctx st d (RegImm.reg s1) (RegImm.reg s2) Nat.xor)
  | Instruction.and d s1 s2 =>
    some (Visitor.set3 ctx st d (RegImm.reg s1) (RegImm.reg s2) Nat.land)
  | Instruction.or d s1 s2 =>
    some (Visitor.set3 ctx st d (RegImm.reg s1) (RegImm.reg s2) Nat.lor)
  | Instruction.add d s1 s2 =>
    some (Visitor.set3 ctx st d (RegImm.reg s1) (RegImm.reg s2) wrappingAdd)
  | Instruction.sub d s1 s2 =>
    some (Visitor.set3 ctx st d (RegImm.reg s1) (RegImm.reg s2) wrappingSub)
  | Instruction.negate_and_add_imm d s1 s2 =>
    some (Visitor.set3 ctx st d (RegImm.reg s1) (RegImm.imm s2) (fun a b => wrappingSub b a))
  | Instruction.mul d s1 s2 =>
    some (Visitor.set3 ctx st d (RegImm.reg s1) (RegImm.reg s2) wrappingMul)
  | Instruction.mul_imm d s1 s2 =>
    some (Visitor.set3 ctx st d (RegImm.reg s1) (RegImm.imm s2) wrappingMul)
  | Instruction.mul_upper_signed_signed d s1 s2 =>
    some (Visitor.set3 ctx st d (RegImm.reg s1) (RegImm.reg s2) mulh)
  | Instruction.mul_upper_signed_signed_imm d s1 s2 =>
    some (Visitor.set3 ctx st d (RegImm.reg s1) (RegImm.imm s2) mulh)
  | Instruction.mul_upper_unsigned_unsigned d s1 s2 =>
    some (Visitor.set3 ctx st d (RegImm.reg s1) (RegImm.reg s2) mulhu)
  | Instruction.mul_upper_unsigned_unsigned_imm d s1 s2 =>
    some (Visitor.set3 ctx st d (RegImm.reg s1) (RegImm.imm s2) mulhu)
  | Instruction.mul_upper_signed_unsigned d s1 s2 =>
    some (Visitor.set3 ctx st d (RegImm.reg s1) (RegImm.reg s2) mulhsu)
  | Instruction.div_unsigned d s1 s2 =>
    some (Visitor.set3 ctx st d (RegImm.reg s1) (RegImm.reg s2) divu)
  | Instruction.div_signed d s1 s2 =>
    some (Visitor.set3 ctx st d (RegImm.reg s1) (RegImm.reg s2) idiv)
  | Instruction.rem_unsigned d s1 s2 =>
    some (Visitor.set3 ctx st d (RegImm.reg s1) (RegImm.reg s2) remu)
  | Instruction.rem_signed d s1 s2 =>
    some (Visitor.set3 ctx st d (RegImm.reg s1) (RegImm.reg s2) irem)
  | Instruction.set_less_than_unsigned_imm d s1 s2 =>
    some (Visitor.set3 ctx st d (RegImm.reg s1) (RegImm.imm s2)
      (fun a b => boolToU32 (decide (a < b))))
  | Instruction.set_greater_than_unsigned_imm d s1 s2 =>
    some (Visitor.set3 ctx st d (RegImm.reg s1) (RegImm.imm s2)
      (fun a b => boolToU32 (decide (b < a))))
  | Instruction.set_less_than_signed_imm d s1 s2 =>
    some (Visitor.set3 ctx st d (RegImm.reg s1) (RegImm.imm s2)
      (fun a b => boolToU32 (decide (toInt32 a < toInt32 b))))
  | Instruction.set_greater_than_signed_imm d s1 s2 =>
    some (Visitor.set3 ctx st d (RegImm.reg s1) (RegImm.imm s2)
      (fun a b => boolToU32 (decide (toInt32 b < toInt32 a))))
  | Instruction.shift_logical_right_imm d s1 s2 =>
    some (Visitor.set3 ctx st d (RegImm.reg s1) (RegImm.imm s2) wrappingShr)
  | Instruction.shift_logical_right_imm_alt d s2 s1 =>
    some (Visitor.set3 ctx st d (RegImm.imm s1) (RegImm.reg s2) wrappingShr)
  | Instruction.shift_arithmetic_right_imm d s1 s2 =>
    some (Visitor.set3 ctx st d (RegImm.reg s1) (RegImm.imm s2) arithShr)
  | Instruction.shift_arithmetic_right_imm_alt d s2 s1 =>
    some (Visitor.set3 ctx st d (RegImm.imm s1) (RegImm.reg s2) arithShr)
  | Instruction.shift_logical_left_imm d s1 s2 =>
    some (Visitor.set3 ctx st d (RegImm.reg s1) (RegImm.imm s2) wrappingShl)
  | Instruction.shift_logical_left_imm_alt d s2 s1 =>
    some (Visitor.set3 ctx st d (RegImm.imm s1) (RegImm.reg s2) wrappingShl)
  | Instruction.or_imm d s1 s2 =>
    some (Visitor.set3 ctx st d (RegImm.reg s1) (RegImm.imm s2) Nat.lor)
  | Instruction.and_imm d s1 s2 =>
    some (Visitor.set3 ctx st d (RegImm.reg s1) (RegImm.imm s2) Nat.land)
  | Instruction.xor_imm d s1 s2 =>
    some (Visitor.set3 ctx st d (RegImm.reg s1) (RegImm.imm s2) Nat.xor)
  | Instruction.load_imm dst imm =>
    let o := Visitor.vset ctx st dst imm
    some (match o.error with
      | some _ => o
      | none => ⟨{ o.inst with nthInstruction := o.inst.nthInstruction + 1 }, o.events, none⟩)
  | Instruction.move_reg d s =>
    let o := Visitor.vset ctx st d (st.regs.getD s 0)
    some (match o.error with
      | some _ => o
      | none => ⟨{ o.inst with nthInstruction := o.inst.nthInstruction + 1 }, o.events, none⟩)
  | Instruction.cmov_if_zero d s c =>
    some (Visitor.set3 ctx st d (RegImm.reg s) (RegImm.reg c)
      (fun s c => if c = 0 then s else 0))
  | Instruction.cmov_if_not_zero d s c =>
    some (Visitor.set3 ctx st d (RegImm.reg s) (RegImm.reg c)
      (fun s c => if c ≠ 0 then s else 0))
  | Instruction.add_imm d s1 s2 =>
    some (Visitor.set3 ctx st d (RegImm.reg s1) (RegImm.imm s2) wrappingAdd)
  | Instruction.store_imm_u8 value offset =>
    some (Visitor.store ctx module st StoreKind.u8 (RegImm.imm value) none offset)
  | Instruction.store_imm_u16 value offset =>
    some (Visitor.store ctx module st StoreKind.u16 (RegImm.imm value) none offset)
  | Instruction.store_imm_u32 value offset =>
    some (Visitor.store ctx module st StoreKind.u32 (RegImm.imm value) none offset)
  | Instruction.store_imm_indirect_u8 base offset value =>
    some (Visitor.store ctx module st StoreKind.u8 (RegImm.imm value) (some base) offset)
  | Instruction.store_imm_indirect_u16 base offset value =>
    some (Visitor.store ctx module st StoreKind.u16 (RegImm.imm value) (some base) offset)
  | Instruction.store_imm_indirect_u32 base offset value =>
    some (Visitor.store ctx module st StoreKind.u32 (RegImm.imm value) (some base) offset)
  | Instruction.store_indirect_u8 src base offset =>
    some (Visitor.store ctx module st StoreKind.u8 (RegImm.reg src) (some base) offset)
  | Instruction.store_indirect_u16 src base offset =>
    some (Visitor.store ctx module st StoreKind.u16 (RegImm.reg src) (some base) offset)
  | Instruction.store_indirect_u32 src base offset =>
    some (Visitor.store ctx module st StoreKind.u32 (RegImm.reg src) (some base) offset)
  | Instruction.store_u8 src offset =>
    some (Visitor.store ctx module st StoreKind.u8 (RegImm.reg src) none offset)
  | Instruction.store_u16 src offset =>
    some (Visitor.store ctx module st StoreKind.u16 (RegImm.reg src) none offset)
  | Instruction.store_u32 src offset =>
    some (Visitor.store ctx module st StoreKind.u32 (RegImm.reg src) none offset)
  | Instruction.load_u8 dst offset =>
    some (Visitor.load ctx module st LoadKind.u8 dst none offset)
  | Instruction.load_i8 dst offset =>
    some (Visitor.load ctx module st LoadKind.i8 dst none offset)
  | Instruction.load_u16 dst offset =>
    some (Visitor.load ctx module st LoadKind.u16 dst none offset)
  | Instruction.load_i16 dst offset =>
    some (Visitor.load ctx module st LoadKind.i16 dst none offset)
  | Instruction.load_u32 dst offset =>
    some (Visitor.load ctx module st LoadKind.u32 dst none offset)
  | Instruction.load_indirect_u8 dst base offset =>
    some (Visitor.load ctx module st LoadKind.u8 dst (some base) offset)
  | Instruction.load_indirect_i8 dst base offset =>
    some (Visitor.load ctx module st LoadKind.i8 dst (some base) offset)
  | Instruction.load_indirect_u16 dst base offset =>
    some (Visitor.load ctx module st LoadKind.u16 dst (some base) offset)
  | Instruction.load_indirect_i16 dst base offset =>
    some (Visitor.load ctx module st LoadKind.i16 dst (some base) offset)
  | Instruction.load_indirect_u32 dst base offset =>
    some (Visitor.load ctx module st LoadKind.u32 dst (some base) offset)
  | Instruction.branch_less_unsigned s1 s2 i =>
    Visitor.branch module st (RegImm.reg s1) (RegImm.reg s2) i (fun a b => decide (a < b))
  | Instruction.branch_less_unsigned_imm s1 s2 i =>
    Visitor.branch module st (RegImm.reg s1) (RegImm.imm s2) i (fun a b => decide (a < b))
  | Instruction.branch_less_signed s1 s2 i =>
    Visitor.branch module st (RegImm.reg s1) (RegImm.reg s2) i
      (fun a b => decide (toInt32 a < toInt32 b))
  | Instruction.branch_less_signed_imm s1 s2 i =>
    Visitor.branch module st (RegImm.reg s1) (RegImm.imm s2) i
      (fun a b => decide (toInt32 a < toInt32 b))
  | Instruction.branch_eq s1 s2 i =>
    Visitor.branch module st (RegImm.reg s1) (RegImm.reg s2) i (fun a b => decide (a = b))
  | Instruction.branch_eq_imm s1 s2 i =>
    Visitor.branch module st (RegImm.reg s1) (RegImm.imm s2) i (fun a b => decide (a = b))
  | Instruction.branch_not_eq s1 s2 i =>
    Visitor.branch module st (RegImm.reg s1) (RegImm.reg s2) i (fun a b => decide (a ≠ b))
  | Instruction.branch_not_eq_imm s1 s2 i =>
    Visitor.branch module st (RegImm.reg s1) (RegImm.imm s2) i (fun a b => decide (a ≠ b))
  | Instruction.branch_greater_or_equal_unsigned s1 s2 i =>
    Visitor.branch module st (RegImm.reg s1) (RegImm.reg s2) i (fun a b => decide (b ≤ a))
  | Instruction.branch_greater_or_equal_unsigned_imm s1 s2 i =>
    Visitor.branch module st (RegImm.reg s1) (RegImm.imm s2) i (fun a b => decide (b ≤ a))
  | Instruction.branch_greater_or_equal_signed s1 s2 i =>
    Visitor.branch module st (RegImm.reg s1) (RegImm.reg s2) i
      (fun a b => decide (toInt32 b ≤ toInt32 a))
  | Instruction.branch_greater_or_equal_signed_imm s1 s2 i =>
    Visitor.branch module st (RegImm.reg s1) (RegImm.imm s2) i
      (fun a b => decide (toInt32 b ≤ toInt32 a))
  | Instruction.branch_less_or_equal_unsigned_imm s1 s2 i =>
    Visitor.branch module st (RegImm.reg s1) (RegImm.imm s2) i (fun a b => decide (a ≤ b))
  | Instruction.branch_less_or_equal_signed_imm s1 s2 i =>
    Visitor.branch module st (RegImm.reg s1) (RegImm.imm s2) i
      (fun a b => decide (toInt32 a ≤ toInt32 b))
  | Instruction.branch_greater_unsigned_imm s1 s2 i =>
    Visitor.branch module st (RegImm.reg s1) (RegImm.imm s2) i (fun a b => decide (b < a))
  | Instruction.branch_greater_signed_imm s1 s2 i =>
    Visitor.branch module st (RegImm.reg s1) (RegImm.imm s2) i
      (fun a b => decide (toInt32 b < toInt32 a))
  | Instruction.jump target => Visitor.jump module target st
  | Instruction.jump_indirect base offset => Visitor.jumpIndirect module ctx base offset st
  | Instruction.call ra target => Visitor.call module ctx ra target st
  | Instruction.call_indirect ra base offset =>
    Visitor.callIndirect module ctx ra base offset st

/-- The module's decoded instruction stream is carried alongside `VmModule`
(in Rust it is a field of `InterpretedModule`). -/
structure VmProgram where
  module : VmModule
  instructions : List Instruction

/-- The fetch-execute loop of `InterpretedInstance::run`: increment the
cycle counter, fetch (a fetch past the end of the stream is a Trap),
dispatch, stop on error or on `return_to_host`.  `fuel` bounds the number
of iterations; exhaustion yields `none` (the Rust loop is unbounded). -/
def runLoop (prog : VmProgram) (ctx : InterpreterContext) :
    Nat → InterpretedInstance → Option StepOut
  | 0, _ => none
  | fuel + 1, st =>
    let st1 := { st with cycleCounter := st.cycleCounter + 1 }
    match prog.instructions.get? st1.nthInstruction with
    | none => some ⟨st1, [], some ExecutionError.trap⟩
    | some instr =>
      match Instruction.visit prog.module ctx st1 instr with
      | none => none
      | some o =>
        match o.error with
        | some _ => some o
        | none =>
          if o.inst.returnToHost then some o
          else
            (runLoop prog ctx fuel o.inst).map
              (fun o2 => ⟨o2.inst, o.events ++ o2.events, o2.error⟩)

/-- `InterpretedInstance::run`: when `in_new_execution` is set, clear it and
charge the entry basic block (the deferred first-block charge) before the
fetch-execute loop. -/
def InterpretedInstance.run (prog : VmProgram) (ctx : InterpreterContext) (fuel : Nat)
    (st : InterpretedInstance) : Option StepOut :=
  if st.inNewExecution then
    let st1 := { st with inNewExecution := false }
    match InterpretedInstance.onStartNewBasicBlock prog.module st1 with
    | none => none
    | some o =>
      match o.error with
      | some _ => some o
      | none =>
        (runLoop prog ctx fuel o.inst).map
          (fun o2 => ⟨o2.inst, o.events ++ o2.events, o2.error⟩)
  else
    runLoop prog ctx fuel st

/-- The whole byte range `[addr, addr+len)` lies inside the address region
`[start, start+size)` (for `len ≥ 1` this is the usual range inclusion). -/
def rangeWithin (start size addr len : Nat) : Prop :=
  start ≤ addr ∧ addr + len ≤ start + size

instance (start size addr len : Nat) : Decidable (rangeWithin start size addr len) := by
  unfold rangeWithin
  infer_instance

/-- A concrete memory layout used as a test fixture. -/
def mc0 : MemoryConfig :=
  ⟨16, 16, 32, 16, 64, 16⟩

/-- A concrete module used as a test fixture: three basic blocks with gas
costs 2, 1 and 5, one export of block 0, and a jump table containing only
index 3 ↦ block 1. -/
def M0 : VmModule :=
  { memoryConfig := mc0
    roData := List.replicate 16 7
    rwData := [1, 2, 3]
    gasCostForBasicBlock := [2, 1, 5]
    gasMetering := true
    instructionByBasicBlock := fun b => if b ≤ 2 then some (b * 2) else none
    basicBlockByJumpTableIndex := fun j => if j = 3 then some 1 else none
    jumpTableIndexByBasicBlock := fun b => if b = 1 then some 3 else none
    exports := [0] }

/-- A concrete instance state used as a test fixture. -/
def st0 : InterpretedInstance :=
  { heap := List.replicate 16 0
    stack := List.replicate 16 0
    regs := List.replicate 13 0
    nthInstruction := 0
    nthBasicBlock := 0
    returnToHost := false
    cycleCounter := 0
    gasRemaining := some 10
    inNewExecution := false }

/-- A context with no callbacks installed. -/
def ctxNone : InterpreterContext := ⟨none, none, none⟩

/-- A context used as a test fixture for the observer claims: the
`on_set_reg` observer is installed (and always succeeds), and the hostcall
handler writes `7` into register `0` through the access handle and
succeeds. -/
def ctxObs : InterpreterContext :=
  ⟨some (fun _ => ([HostAction.setReg 0 7], true)), some (fun _ _ => true), none⟩

theorem wrap64_id (x : Int) (h1 : -I64HALF ≤ x) (h2 : x < I64HALF) : wrap64 x = x := by
  unfold wrap64 I64HALF I64SIZE at *
  omega

theorem getD_set_self (l : List Nat) (i v : Nat) (h : i < l.length) :
    (l.set i v).getD i 0 = v := by
  induction l generalizing i with
  | nil => simp at h
  | cons a t ih =>
    cases i with
    | zero => rfl
    | succ n =>
      simp only [List.set_cons_succ, List.getD_cons_succ]
      exact ih n (by simpa using h)

theorem writeBytes_length (mem bytes : List Nat) (off : Nat)
    (h : off + bytes.length ≤ mem.length) :
    (writeBytes mem off bytes).length = mem.length := by
  unfold writeBytes
  simp only [List.length_append, List.length_take, List.length_drop]
  omega

theorem writeBytes_readBack (mem bytes : List Nat) (off : Nat)
    (h : off + bytes.length ≤ mem.length) :
    ((writeBytes mem off bytes).drop off).take bytes.length = bytes := by
  have hlen : (mem.take off).length = off := by
    rw [List.length_take]
    omega
  have h1 : (mem.take off ++ (bytes ++ mem.drop (off + bytes.length))).drop off =
      bytes ++ mem.drop (off + bytes.length) := by
    have h2 := List.drop_left (mem.take off) (bytes ++ mem.drop (off + bytes.length))
    rwa [hlen] at h2
  unfold writeBytes
  rw [h1, List.take_left]

theorem getMemorySlice_isSome_iff (module : VmModule) (st : InterpretedInstance)
    (addr L : Nat) (hL : 1 ≤ L)
    (hro : module.roData.length = module.memoryConfig.roSize)
    (hh : st.heap.length = module.memoryConfig.heapSize)
    (hs : st.stack.length = module.memoryConfig.stackSize)
    (hd1 : module.memoryConfig.roStart + module.memoryConfig.roSize ≤
        module.memoryConfig.heapStart ∨
      module.memoryConfig.heapStart + module.memoryConfig.heapSize ≤
        module.memoryConfig.roStart)
    (hd2 : module.memoryConfig.roStart + module.memoryConfig.roSize ≤
        module.memoryConfig.stackStart ∨
      module.memoryConfig.stackStart + module.memoryConfig.stackSize ≤
        module.memoryConfig.roStart)
    (hd3 : module.memoryConfig.heapStart + module.memoryConfig.heapSize ≤
        module.memoryConfig.stackStart ∨
      module.memoryConfig.stackStart + module.memoryConfig.stackSize ≤
        module.memoryConfig.heapStart) :
    (InterpretedInstance.getMemorySlice module st addr L).isSome = true ↔
      (rangeWithin module.memoryConfig.roStart module.memoryConfig.roSize addr L ∨
       rangeWithin module.memoryConfig.heapStart module.memoryConfig.heapSize addr L ∨
       rangeWithin module.memoryConfig.stackStart module.memoryConfig.stackSize addr L) := by
  unfold InterpretedInstance.getMemorySlice sliceGet rangeWithin
  simp only [rangeContains, Bool.and_eq_true, decide_eq_true_eq, hro, hh, hs]
  split_ifs <;> simp_all <;> omega

theorem storeToMemory_isSome_iff (module : VmModule) (st : InterpretedInstance)
    (addr : Nat) (bytes : List Nat) (hL : 1 ≤ bytes.length)
    (hh : st.heap.length = module.memoryConfig.heapSize)
    (hs : st.stack.length = module.memoryConfig.stackSize)
    (hd3 : module.memoryConfig.heapStart + module.memoryConfig.heapSize ≤
        module.memoryConfig.stackStart ∨
      module.memoryConfig.stackStart + module.memoryConfig.stackSize ≤
        module.memoryConfig.heapStart) :
    (InterpretedInstance.storeToMemory module st addr bytes).isSome = true ↔
      (rangeWithin module.memoryConfig.heapStart module.memoryConfig.heapSize addr
        bytes.length ∨
       rangeWithin module.memoryConfig.stackStart module.memoryConfig.stackSize addr
        bytes.length) := by
  unfold InterpretedInstance.storeToMemory rangeWithin
  simp only [rangeContains, Bool.and_eq_true, decide_eq_true_eq, hh, hs]
  split_ifs <;> simp_all <;> omega

/-- C3: for every present `gas_remaining` value `g` and every requested
amount `n`, `consume_gas(n)` through the access handle subtracts `n` from
`g` saturating to `−1`: on `i64` underflow the counter becomes exactly
`−1`, which makes the out-of-gas check (run after the host callback)
fire. -/
theorem C3_consume_gas_saturating (st : InterpretedInstance) (g : Int) (n : Nat)
    (hg : st.gasRemaining = some g) :
    (InterpretedAccess.consumeGas st n).gasRemaining =
      some (if g - (n : Int) < -I64HALF then -1 else g - (n : Int)) ∧
    (g - (n : Int) < -I64HALF →
      (InterpretedAccess.consumeGas st n).gasRemaining = some (-1) ∧
      InterpretedInstance.checkGasError (InterpretedAccess.consumeGas st n) =
        some ExecutionError.outOfGas) := by
  unfold InterpretedAccess.consumeGas InterpretedInstance.checkGasError
  rw [hg]
  refine ⟨rfl, fun h => ?_⟩
  simp only [if_pos h]
  norm_num

/-- Witness for C3 at a concrete input: consuming 100 gas from a counter of
`−2^63 + 50` underflows and clamps to `−1`. -/
theorem C3_witness :
    (InterpretedAccess.consumeGas
        { st0 with gasRemaining := some (-9223372036854775758) } 100).gasRemaining =
      some (-1) ∧
    InterpretedInstance.checkGasError
        (InterpretedAccess.consumeGas
          { st0 with gasRemaining := some (-9223372036854775758) } 100) =
      some ExecutionError.outOfGas :=
  (C3_consume_gas_saturating { st0 with gasRemaining := some (-9223372036854775758) }
    (-9223372036854775758) 100 rfl).2 (by norm_num [I64HALF])

/-- C9: after `reset_memory` the heap is exactly `rw_data` followed by
zeroes up to `heap_size`, and the stack is `stack_size` zeroes; in
particular the buffer lengths equal the configured sizes. -/
theorem C9_reset_memory (module : VmModule) (st : InterpretedInstance)
    (hle : module.rwData.length ≤ module.memoryConfig.heapSize) :
    (InterpretedInstance.resetMemory module st).heap =
      module.rwData ++
        List.replicate (module.memoryConfig.heapSize - module.rwData.length) 0 ∧
    (InterpretedInstance.resetMemory module st).heap.length =
      module.memoryConfig.heapSize ∧
    (InterpretedInstance.resetMemory module st).stack =
      List.replicate module.memoryConfig.stackSize 0 ∧
    (InterpretedInstance.resetMemory module st).stack.length =
      module.memoryConfig.stackSize := by
  unfold InterpretedInstance.resetMemory
  refine ⟨?_, ?_, rfl, by simp⟩
  · rw [List.take_of_length_le hle]
  · rw [List.take_of_length_le hle]
    simp only [List.length_append, List.length_replicate]
    omega

/-- Witness for C9 at a concrete input. -/
theorem C9_witness :
    (InterpretedInstance.resetMemory M0 st0).heap =
      M0.rwData ++
        List.replicate (M0.memoryConfig.heapSize - M0.rwData.length) 0 ∧
    (InterpretedInstance.resetMemory M0 st0).heap.length =
      M0.memoryConfig.heapSize ∧
    (InterpretedInstance.resetMemory M0 st0).stack =
      List.replicate M0.memoryConfig.stackSize 0 ∧
    (InterpretedInstance.resetMemory M0 st0).stack.length =
      M0.memoryConfig.stackSize :=
  C9_reset_memory M0 st0 (by decide)

/-- C10: the invariant "`gas_remaining` is present iff gas metering is
enabled" is preserved: `prepare_for_call` on a module without gas metering
clears `gas_remaining` even when the configuration supplies a budget;
`prepare_for_call` on a gas-metered module with no configured budget leaves
`gas_remaining` unchanged (and with a budget `g` sets it to `g` cast to
`i64`); and `consume_gas` through the access handle is a no-op when
`gas_remaining` is absent. -/
theorem C10_gas_presence_invariant (module : VmModule) (st : InterpretedInstance)
    (config : ExecutionConfig) (ei bb ni g n : Nat)
    (hexp : module.exports.get? ei = some bb)
    (hni : module.instructionByBasicBlock bb = some ni)
    (hlen : config.initialRegs.length = st.regs.length) :
    (module.gasMetering = false →
      (InterpretedInstance.prepareForCall module ei config st).map
        InterpretedInstance.gasRemaining = some none) ∧
    (module.gasMetering = true → config.gas = none →
      (InterpretedInstance.prepareForCall module ei config st).map
        InterpretedInstance.gasRemaining = some st.gasRemaining) ∧
    (module.gasMetering = true → config.gas = some g →
      (InterpretedInstance.prepareForCall module ei config st).map
        InterpretedInstance.gasRemaining = some (some (i64cast g))) ∧
    (st.gasRemaining = none → InterpretedAccess.consumeGas st n = st) := by
  refine ⟨fun hm => ?_, fun hm hgas => ?_, fun hm hgas => ?_, fun hg => ?_⟩ <;>
    simp_all [InterpretedInstance.prepareForCall, InterpretedAccess.consumeGas]

/-- A gas-meterless variant of the fixture module. -/
def M1 : VmModule := { M0 with gasMetering := false }

/-- Witness for C10 at a concrete input: the fixture module with gas
metering disabled, called with a configuration that does supply a budget. -/
theorem C10_witness :
    (M1.gasMetering = false →
      (InterpretedInstance.prepareForCall M1 0 ⟨List.replicate 13 0, some 42, false⟩ st0).map
        InterpretedInstance.gasRemaining = some none) ∧
    (M1.gasMetering = true → (⟨List.replicate 13 0, some 42, false⟩ : ExecutionConfig).gas = none →
      (InterpretedInstance.prepareForCall M1 0 ⟨List.replicate 13 0, some 42, false⟩ st0).map
        InterpretedInstance.gasRemaining = some st0.gasRemaining) ∧
    (M1.gasMetering = true → (⟨List.replicate 13 0, some 42, false⟩ : ExecutionConfig).gas = some 42 →
      (InterpretedInstance.prepareForCall M1 0 ⟨List.replicate 13 0, some 42, false⟩ st0).map
        InterpretedInstance.gasRemaining = some (some (i64cast 42))) ∧
    (st0.gasRemaining = none → InterpretedAccess.consumeGas st0 5 = st0) :=
  C10_gas_presence_invariant M1 st0 ⟨List.replicate 13 0, some 42, false⟩ 0 0 0 42 5
    (by decide) (by decide) (by decide)

/-- C8 counterexample: with the `on_set_reg` observer installed, an
`ecalli` whose host callback writes register 0 through the access handle's
`set_reg` performs the register write (register 0 becomes 7) and succeeds,
yet records no observer invocation at all — refuting the claim that the
observer is invoked after register writes performed through the access
handle during `ecalli` (`InterpretedAccess::set_reg` writes the register
array directly and has no reference to the observer). -/
theorem C8_counterexample :
    ctxObs.onSetReg.isSome = true ∧
    (Visitor.ecalli ctxObs 0 st0).inst.regs.getD 0 0 = 7 ∧
    (Visitor.ecalli ctxObs 0 st0).error = none ∧
    (Visitor.ecalli ctxObs 0 st0).events = [] := by
  refine ⟨rfl, ?_, ?_, ?_⟩ <;> decide

/-- C8 amended: when the `on_set_reg` observer is installed it is invoked
with `(reg, value)` after every register write performed by the
interpreter's own `Visitor::set` (through which all instruction-level
register writes flow), but register writes performed by a host callback
through the access handle's `set_reg` during `ecalli` do not invoke it:
`InterpretedAccess::set_reg` updates the register directly, and an
`ecalli` records no observer invocations. -/
theorem C8_on_set_reg_amended (ctx : InterpreterContext) (st : InterpretedInstance)
    (dst value r v imm : Nat) (f : Nat → Nat → Bool)
    (hf : ctx.onSetReg = some f) :
    (Visitor.vset ctx st dst value).events = [Event.setReg dst value] ∧
    (Visitor.vset ctx st dst value).inst.regs = st.regs.set dst value ∧
    (InterpretedAccess.setReg st r v).regs = st.regs.set r v ∧
    (Visitor.ecalli ctx imm st).events = [] := by
  refine ⟨?_, ?_, rfl, ?_⟩
  · simp [Visitor.vset, hf]
  · simp [Visitor.vset, hf]
  · unfold Visitor.ecalli
    cases h : ctx.onHostcall with
    | none => rfl
    | some hc =>
      simp only []
      split <;> rfl

/-- Witness for the amended C8 at a concrete input. -/
theorem C8_amended_witness :
    (Visitor.vset ctxObs st0 1 9).events = [Event.setReg 1 9] ∧
    (Visitor.vset ctxObs st0 1 9).inst.regs = st0.regs.set 1 9 ∧
    (InterpretedAccess.setReg st0 0 7).regs = st0.regs.set 0 7 ∧
    (Visitor.ecalli ctxObs 0 st0).events = [] :=
  C8_on_set_reg_amended ctxObs st0 1 9 0 7 0 (fun _ _ => true) rfl

/-- The property stated by claim C7: for every variant of the shift
instructions, the applied shift amount is the second operand reduced
modulo 32 (its low 5 bits), and the instruction always succeeds — also
for amounts of 32 or more — writing the result and advancing the
program counter. -/
def ShiftsMaskAmount (module : VmModule) (ctx : InterpreterContext)
    (st : InterpretedInstance) (d s1 s2 n : Nat) : Prop :=
  Instruction.visit module ctx st (Instruction.shift_logical_right d s1 s2) =
    some ⟨{ st with
      regs := st.regs.set d (st.regs.getD s1 0 >>> (st.regs.getD s2 0 % 32)),
      nthInstruction := st.nthInstruction + 1 }, [], none⟩ ∧
  Instruction.visit module ctx st (Instruction.shift_arithmetic_right d s1 s2) =
    some ⟨{ st with
      regs := st.regs.set d
        (toU32 (Int.fdiv (toInt32 (st.regs.getD s1 0))
          ((2 : Int) ^ (st.regs.getD s2 0 % 32)))),
      nthInstruction := st.nthInstruction + 1 }, [], none⟩ ∧
  Instruction.visit module ctx st (Instruction.shift_logical_left d s1 s2) =
    some ⟨{ st with
      regs := st.regs.set d ((st.regs.getD s1 0 <<< (st.regs.getD s2 0 % 32)) % U32),
      nthInstruction := st.nthInstruction + 1 }, [], none⟩ ∧
  Instruction.visit module ctx st (Instruction.shift_logical_right_imm d s1 n) =
    some ⟨{ st with
      regs := st.regs.set d (st.regs.getD s1 0 >>> (n % 32)),
      nthInstruction := st.nthInstruction + 1 }, [], none⟩ ∧
  Instruction.visit module ctx st (Instruction.shift_logical_right_imm_alt d s2 n) =
    some ⟨{ st with
      regs := st.regs.set d (n >>> (st.regs.getD s2 0 % 32)),
      nthInstruction := st.nthInstruction + 1 }, [], none⟩ ∧
  Instruction.visit module ctx st (Instruction.shift_arithmetic_right_imm d s1 n) =
    some ⟨{ st with
      regs := st.regs.set d
        (toU32 (Int.fdiv (toInt32 (st.regs.getD s1 0)) ((2 : Int) ^ (n % 32)))),
      nthInstruction := st.nthInstruction + 1 }, [], none⟩ ∧
  Instruction.visit module ctx st (Instruction.shift_arithmetic_right_imm_alt d s2 n) =
    some ⟨{ st with
      regs := st.regs.set d
        (toU32 (Int.fdiv (toInt32 n) ((2 : Int) ^ (st.regs.getD s2 0 % 32)))),
      nthInstruction := st.nthInstruction + 1 }, [], none⟩ ∧
  Instruction.visit module ctx st (Instruction.shift_logical_left_imm d s1 n) =
    some ⟨{ st with
      regs := st.regs.set d ((st.regs.getD s1 0 <<< (n % 32)) % U32),
      nthInstruction := st.nthInstruction + 1 }, [], none⟩ ∧
  Instruction.visit module ctx st (Instruction.shift_logical_left_imm_alt d s2 n) =
    some ⟨{ st with
      regs := st.regs.set d ((n <<< (st.regs.getD s2 0 % 32)) % U32),
      nthInstruction := st.nthInstruction + 1 }, [], none⟩

/-- C7: every shift instruction (logical left/right, arithmetic right, and
all their immediate and reversed-operand variants) applies the low 5 bits
of the shift operand (the amount modulo 32) and is total — it never fails,
also for amounts of 32 or more. -/
theorem C7_shifts_mask_amount (module : VmModule) (ctx : InterpreterContext)
    (st : InterpretedInstance) (d s1 s2 n : Nat)
    (honset : ctx.onSetReg = none) :
    ShiftsMaskAmount module ctx st d s1 s2 n := by
  unfold ShiftsMaskAmount
  refine ⟨?_, ?_, ?_, ?_, ?_, ?_, ?_, ?_, ?_⟩ <;>
    simp [Instruction.visit, Visitor.set3, Visitor.vset, Visitor.vget, honset,
      wrappingShr, wrappingShl, arithShr]

/-- Witness for C7 at a concrete input: register 1 holds 40, and the
immediate amount is 35 — both at least 32 — and every variant shifts by
the amount modulo 32. -/
theorem C7_witness :
    ShiftsMaskAmount M0 ctxNone { st0 with regs := st0.regs.set 1 40 } 2 0 1 35 :=
  C7_shifts_mask_amount M0 ctxNone { st0 with regs := st0.regs.set 1 40 } 2 0 1 35 rfl


/-- The property stated by claim C1: the ordered case policy of
`Visitor::dynamic_jump` for `jump_indirect(base, offset)` and
`call_indirect(ra, base, offset)`, with the target computed as
`regs[base]` wrapping-plus `offset` and the return address
`rj * VM_CODE_ADDRESS_ALIGNMENT` written to `ra` before any check: the
`RETURN_TO_HOST` sentinel sets `return_flag` and succeeds; otherwise
target `0` traps; otherwise a misaligned target traps; otherwise a target
whose scaled index is absent from the jump table traps; otherwise the
instruction redirects to the resolved basic block and runs the
new-basic-block hook. -/
def DynamicJumpSpec (module : VmModule) (ctx : InterpreterContext)
    (st : InterpretedInstance) (base offset ra rj bb ni : Nat) : Prop :=
  ((st.regs.getD base 0 + offset) % U32 = VM_ADDR_RETURN_TO_HOST →
    Visitor.jumpIndirect module ctx base offset st =
      some ⟨{ st with returnToHost := true }, [], none⟩ ∧
    Visitor.callIndirect module ctx ra base offset st =
      some ⟨{ st with regs := st.regs.set ra (rj * VM_CODE_ADDRESS_ALIGNMENT), returnToHost := true }, [], none⟩) ∧
  ((st.regs.getD base 0 + offset) % U32 ≠ VM_ADDR_RETURN_TO_HOST →
    (st.regs.getD base 0 + offset) % U32 = 0 →
    Visitor.jumpIndirect module ctx base offset st =
      some ⟨st, [], some ExecutionError.trap⟩ ∧
    Visitor.callIndirect module ctx ra base offset st =
      some ⟨{ st with regs := st.regs.set ra (rj * VM_CODE_ADDRESS_ALIGNMENT) }, [], some ExecutionError.trap⟩) ∧
  ((st.regs.getD base 0 + offset) % U32 ≠ VM_ADDR_RETURN_TO_HOST →
    (st.regs.getD base 0 + offset) % U32 ≠ 0 →
    (st.regs.getD base 0 + offset) % U32 % VM_CODE_ADDRESS_ALIGNMENT ≠ 0 →
    Visitor.jumpIndirect module ctx base offset st =
      some ⟨st, [], some ExecutionError.trap⟩ ∧
    Visitor.callIndirect module ctx ra base offset st =
      some ⟨{ st with regs := st.regs.set ra (rj * VM_CODE_ADDRESS_ALIGNMENT) }, [], some ExecutionError.trap⟩) ∧
  ((st.regs.getD base 0 + offset) % U32 ≠ VM_ADDR_RETURN_TO_HOST →
    (st.regs.getD base 0 + offset) % U32 ≠ 0 →
    (st.regs.getD base 0 + offset) % U32 % VM_CODE_ADDRESS_ALIGNMENT = 0 →
    module.basicBlockByJumpTableIndex
      ((st.regs.getD base 0 + offset) % U32 / VM_CODE_ADDRESS_ALIGNMENT) = none →
    Visitor.jumpIndirect module ctx base offset st =
      some ⟨st, [], some ExecutionError.trap⟩ ∧
    Visitor.callIndirect module ctx ra base offset st =
      some ⟨{ st with regs := st.regs.set ra (rj * VM_CODE_ADDRESS_ALIGNMENT) }, [], some ExecutionError.trap⟩) ∧
  ((st.regs.getD base 0 + offset) % U32 ≠ VM_ADDR_RETURN_TO_HOST →
    (st.regs.getD base 0 + offset) % U32 ≠ 0 →
    (st.regs.getD base 0 + offset) % U32 % VM_CODE_ADDRESS_ALIGNMENT = 0 →
    module.basicBlockByJumpTableIndex
      ((st.regs.getD base 0 + offset) % U32 / VM_CODE_ADDRESS_ALIGNMENT) = some bb →
    module.instructionByBasicBlock bb = some ni →
    Visitor.jumpIndirect module ctx base offset st =
      InterpretedInstance.onStartNewBasicBlock module
        { st with nthBasicBlock := bb, nthInstruction := ni } ∧
    Visitor.callIndirect module ctx ra base offset st =
      InterpretedInstance.onStartNewBasicBlock module
        { st with regs := st.regs.set ra (rj * VM_CODE_ADDRESS_ALIGNMENT), nthBasicBlock := bb, nthInstruction := ni })

/-- C1: for every execution of `jump_indirect(base, offset)` or
`call_indirect(ra, base, offset)` with target `regs[base]` wrapping-plus
`offset`: the `RETURN_TO_HOST` sentinel sets `return_flag` and succeeds
(for the call the return-address register is written first); otherwise
target `0` traps; otherwise a misaligned target traps; otherwise an
absent jump-table entry traps; otherwise the instruction redirects to
`basic_block_by_jump_table_index(target / alignment)` and the
new-basic-block hook runs — the cases checked in exactly this order. -/
theorem C1_dynamic_jump (module : VmModule) (ctx : InterpreterContext)
    (st : InterpretedInstance) (base offset ra rj bb ni : Nat)
    (honset : ctx.onSetReg = none)
    (hra : module.jumpTableIndexByBasicBlock (st.nthBasicBlock + 1) = some rj) :
    DynamicJumpSpec module ctx st base offset ra rj bb ni := by
  unfold DynamicJumpSpec Visitor.jumpIndirect Visitor.callIndirect
    Visitor.getReturnAddress Visitor.dynamicJump
  rw [hra]
  simp only [Visitor.vset, honset]
  refine ⟨fun h1 => ⟨?_, ?_⟩, fun h1 h2 => ⟨?_, ?_⟩, fun h1 h2 h3 => ⟨?_, ?_⟩,
    fun h1 h2 h3 h4 => ⟨?_, ?_⟩, fun h1 h2 h3 h4 h5 => ⟨?_, ?_⟩⟩
  · rw [if_pos h1]
  · rw [if_pos h1]
  · rw [if_neg h1, if_pos h2]
  · rw [if_neg h1, if_pos h2]
  · rw [if_neg h1, if_neg h2, if_pos h3]
  · rw [if_neg h1, if_neg h2, if_pos h3]
  · rw [if_neg h1, if_neg h2, if_neg (not_not_intro h3), h4]
  · rw [if_neg h1, if_neg h2, if_neg (not_not_intro h3), h4]
  · rw [if_neg h1, if_neg h2, if_neg (not_not_intro h3), h4]
    simp only [h5]
    cases honb : InterpretedInstance.onStartNewBasicBlock module
        { st with nthBasicBlock := bb, nthInstruction := ni } <;> simp [honb]
  · rw [if_neg h1, if_neg h2, if_neg (not_not_intro h3), h4]
    simp only [h5]
    cases honb : InterpretedInstance.onStartNewBasicBlock module
        { st with regs := st.regs.set ra (rj * VM_CODE_ADDRESS_ALIGNMENT), nthBasicBlock := bb, nthInstruction := ni } <;> simp [honb]

/-- Witness for C1 at a concrete input: `regs[4] = 0`, offset 6, so the
target is 6 — not the sentinel, nonzero, aligned, and jump-table index 3
resolves to basic block 1 whose first instruction is 2. -/
theorem C1_witness : DynamicJumpSpec M0 ctxNone st0 4 6 5 3 1 2 :=
  C1_dynamic_jump M0 ctxNone st0 4 6 5 3 1 2 rfl (by decide)

/-- `onStartNewBasicBlock` in explicit form: with `gas_remaining = g` and
the entered block's cost `c` (within `i64` range), the hook subtracts `c`
and errors with `OutOfGas` exactly when the result is negative. -/
theorem onStartNewBasicBlock_charge (module : VmModule) (st : InterpretedInstance)
    (g : Int) (c : Nat) (hg : st.gasRemaining = some g)
    (hc : module.gasCostForBasicBlock.get? st.nthBasicBlock = some c)
    (h1 : -9223372036854775808 ≤ g - (c : Int)) (h2 : g - (c : Int) < 9223372036854775808) :
    InterpretedInstance.onStartNewBasicBlock module st =
      some ⟨{ st with gasRemaining := some (g - (c : Int)) }, [],
        if g - (c : Int) < 0 then some ExecutionError.outOfGas else none⟩ := by
  unfold InterpretedInstance.onStartNewBasicBlock
  simp only [hg, hc]
  rw [wrap64_id (g - (c : Int)) (by unfold I64HALF; omega) (by unfold I64HALF; omega)]

/-- The property stated by claim C2: on every basic-block entry path —
fallthrough, static jump, taken branch, untaken branch, successful
dynamic jump, and the deferred first-block entry of `run` after
`prepare_for_call` — the entered block's cost is subtracted from
`gas_remaining` before any instruction of that block executes, and the
operation ends with `OutOfGas` exactly when the result is negative. -/
def GasChargedOnBlockEntry (prog : VmProgram) (ctx : InterpreterContext)
    (st : InterpretedInstance) (g : Int) (c0 cT cD cS t nT : Nat)
    (s1 s2 s1' s2' : RegImm) (f f' : Nat → Nat → Bool)
    (base offset dbb dni fuel : Nat) : Prop :=
  Visitor.fallthrough prog.module st =
    some ⟨{ st with nthInstruction := st.nthInstruction + 1, nthBasicBlock := st.nthBasicBlock + 1, gasRemaining := some (g - (c0 : Int)) }, [],
      if g - (c0 : Int) < 0 then some ExecutionError.outOfGas else none⟩ ∧
  Visitor.jump prog.module t st =
    some ⟨{ st with nthBasicBlock := t, nthInstruction := nT, gasRemaining := some (g - (cT : Int)) }, [],
      if g - (cT : Int) < 0 then some ExecutionError.outOfGas else none⟩ ∧
  (f (Visitor.vget st s1) (Visitor.vget st s2) = true →
    Visitor.branch prog.module st s1 s2 t f =
      some ⟨{ st with nthInstruction := nT, nthBasicBlock := t, gasRemaining := some (g - (cT : Int)) }, [],
        if g - (cT : Int) < 0 then some ExecutionError.outOfGas else none⟩) ∧
  (f' (Visitor.vget st s1') (Visitor.vget st s2') = false →
    Visitor.branch prog.module st s1' s2' t f' =
      some ⟨{ st with nthInstruction := st.nthInstruction + 1, nthBasicBlock := st.nthBasicBlock + 1, gasRemaining := some (g - (c0 : Int)) }, [],
        if g - (c0 : Int) < 0 then some ExecutionError.outOfGas else none⟩) ∧
  ((st.regs.getD base 0 + offset) % U32 ≠ VM_ADDR_RETURN_TO_HOST →
    (st.regs.getD base 0 + offset) % U32 ≠ 0 →
    (st.regs.getD base 0 + offset) % U32 % VM_CODE_ADDRESS_ALIGNMENT = 0 →
    prog.module.basicBlockByJumpTableIndex
      ((st.regs.getD base 0 + offset) % U32 / VM_CODE_ADDRESS_ALIGNMENT) = some dbb →
    prog.module.instructionByBasicBlock dbb = some dni →
    Visitor.jumpIndirect prog.module ctx base offset st =
      some ⟨{ st with nthBasicBlock := dbb, nthInstruction := dni, gasRemaining := some (g - (cD : Int)) }, [],
        if g - (cD : Int) < 0 then some ExecutionError.outOfGas else none⟩) ∧
  InterpretedInstance.run prog ctx fuel { st with inNewExecution := true } =
    (if g - (cS : Int) < 0 then
      some ⟨{ st with inNewExecution := false, gasRemaining := some (g - (cS : Int)) }, [],
        some ExecutionError.outOfGas⟩
    else
      runLoop prog ctx fuel { st with inNewExecution := false, gasRemaining := some (g - (cS : Int)) })

/-- C2: with gas metering enabled, on every entry to a basic block (via
branch, jump, fallthrough, dynamic jump, or the deferred first-block entry
after `prepare_for_call`) the block's cost is subtracted from
`gas_remaining` before any instruction of that block executes, and if the
resulting counter is negative the run ends with `OutOfGas`. -/
theorem C2_gas_charged_on_block_entry (prog : VmProgram) (ctx : InterpreterContext)
    (st : InterpretedInstance) (g : Int) (c0 cT cD cS t nT : Nat)
    (s1 s2 s1' s2' : RegImm) (f f' : Nat → Nat → Bool)
    (base offset dbb dni fuel : Nat)
    (hg : st.gasRemaining = some g)
    (hg0 : 0 ≤ g) (hg1 : g < 9223372036854775808)
    (hc0 : prog.module.gasCostForBasicBlock.get? (st.nthBasicBlock + 1) = some c0)
    (hcT : prog.module.gasCostForBasicBlock.get? t = some cT)
    (hcD : prog.module.gasCostForBasicBlock.get? dbb = some cD)
    (hcS : prog.module.gasCostForBasicBlock.get? st.nthBasicBlock = some cS)
    (hnT : prog.module.instructionByBasicBlock t = some nT)
    (hb0 : c0 < 4294967296) (hbT : cT < 4294967296)
    (hbD : cD < 4294967296) (hbS : cS < 4294967296) :
    GasChargedOnBlockEntry prog ctx st g c0 cT cD cS t nT s1 s2 s1' s2' f f'
      base offset dbb dni fuel := by
  unfold GasChargedOnBlockEntry
  refine ⟨?_, ?_, fun htk => ?_, fun hnt => ?_, fun h1 h2 h3 h4 h5 => ?_, ?_⟩
  · unfold Visitor.fallthrough
    exact onStartNewBasicBlock_charge prog.module _ g c0 hg hc0 (by omega) (by omega)
  · unfold Visitor.jump
    rw [hnT]
    exact onStartNewBasicBlock_charge prog.module _ g cT hg hcT (by omega) (by omega)
  · unfold Visitor.branch
    rw [if_pos htk, hnT]
    exact onStartNewBasicBlock_charge prog.module _ g cT hg hcT (by omega) (by omega)
  · unfold Visitor.branch
    rw [if_neg (by simp [hnt])]
    exact onStartNewBasicBlock_charge prog.module _ g c0 hg hc0 (by omega) (by omega)
  · unfold Visitor.jumpIndirect Visitor.dynamicJump
    simp only []
    rw [if_neg h1, if_neg h2, if_neg (not_not_intro h3), h4]
    simp only [h5]
    rw [onStartNewBasicBlock_charge prog.module
      { st with nthBasicBlock := dbb, nthInstruction := dni } g cD hg hcD
      (by omega) (by omega)]
    simp
  · unfold InterpretedInstance.run
    dsimp only
    rw [onStartNewBasicBlock_charge prog.module { st with inNewExecution := false } g cS hg
      hcS (by omega) (by omega)]
    by_cases hcase : g - (cS : Int) < 0
    · simp [hcase]
    · simp only [if_neg hcase, if_true, eq_self_iff_true, if_pos]
      cases hrl : runLoop prog ctx fuel
          { st with inNewExecution := false, gasRemaining := some (g - (cS : Int)) } <;>
        simp [hrl]

/-- A program fixture over the module `M0`. -/
def prog0 : VmProgram :=
  ⟨M0, [Instruction.fallthrough, Instruction.trap, Instruction.trap,
        Instruction.trap, Instruction.trap]⟩

/-- Witness for C2 at a concrete input: gas 10, block costs 2/1/5,
covering all six entry paths. -/
theorem C2_witness :
    GasChargedOnBlockEntry prog0 ctxNone st0 10 1 5 1 2 2 4
      (RegImm.reg 0) (RegImm.reg 0) (RegImm.reg 0) (RegImm.reg 0)
      (fun _ _ => true) (fun _ _ => false) 4 6 1 2 3 :=
  C2_gas_charged_on_block_entry prog0 ctxNone st0 10 1 5 1 2 2 4
    (RegImm.reg 0) (RegImm.reg 0) (RegImm.reg 0) (RegImm.reg 0)
    (fun _ _ => true) (fun _ _ => false) 4 6 1 2 3
    rfl (by norm_num) (by norm_num)
    (by decide) (by decide) (by decide) (by decide) (by decide)
    (by norm_num) (by norm_num) (by norm_num) (by norm_num)

theorem intoBytes_length (k : StoreKind) (v : Nat) : (k.intoBytes v).length = k.size := by
  cases k <;> rfl

theorem storeSize_pos (k : StoreKind) : 1 ≤ k.size := by
  cases k <;> decide

/-- The property stated by claim C4: a store of width `k.size` at the
effective address succeeds exactly when the whole byte range lies inside
the heap region or inside the stack region; any failure is a `Trap` that
leaves both heap and stack byte-for-byte unchanged; and a range inside the
read-only region is never writable. -/
def StoreRangeSpec (module : VmModule) (ctx : InterpreterContext)
    (st : InterpretedInstance) (k : StoreKind) (src : RegImm) (base : Option Nat)
    (offset : Nat) : Prop :=
  ((Visitor.store ctx module st k src base offset).error = none ↔
    (rangeWithin module.memoryConfig.heapStart module.memoryConfig.heapSize
       (effectiveAddress st.regs base offset) k.size ∨
     rangeWithin module.memoryConfig.stackStart module.memoryConfig.stackSize
       (effectiveAddress st.regs base offset) k.size)) ∧
  ((Visitor.store ctx module st k src base offset).error ≠ none →
    (Visitor.store ctx module st k src base offset).error = some ExecutionError.trap ∧
    (Visitor.store ctx module st k src base offset).inst.heap = st.heap ∧
    (Visitor.store ctx module st k src base offset).inst.stack = st.stack) ∧
  (rangeWithin module.memoryConfig.roStart module.memoryConfig.roSize
      (effectiveAddress st.regs base offset) k.size →
    (Visitor.store ctx module st k src base offset).error = some ExecutionError.trap)

/-- C4: for every store instruction writing `L` bytes at the effective
address (base register wrapping-plus offset, or offset alone), the store
succeeds iff the whole range `[addr, addr+L)` lies inside the heap region
or inside the stack region; when it fails it returns `Trap` and leaves
heap and stack byte-for-byte unchanged; the read-only region is never
writable. -/
theorem C4_store_range (module : VmModule) (ctx : InterpreterContext)
    (st : InterpretedInstance) (k : StoreKind) (src : RegImm) (base : Option Nat)
    (offset : Nat)
    (honstore : ctx.onStore = none)
    (hh : st.heap.length = module.memoryConfig.heapSize)
    (hs : st.stack.length = module.memoryConfig.stackSize)
    (hd1 : module.memoryConfig.roStart + module.memoryConfig.roSize ≤
        module.memoryConfig.heapStart ∨
      module.memoryConfig.heapStart + module.memoryConfig.heapSize ≤
        module.memoryConfig.roStart)
    (hd2 : module.memoryConfig.roStart + module.memoryConfig.roSize ≤
        module.memoryConfig.stackStart ∨
      module.memoryConfig.stackStart + module.memoryConfig.stackSize ≤
        module.memoryConfig.roStart)
    (hd3 : module.memoryConfig.heapStart + module.memoryConfig.heapSize ≤
        module.memoryConfig.stackStart ∨
      module.memoryConfig.stackStart + module.memoryConfig.stackSize ≤
        module.memoryConfig.heapStart) :
    StoreRangeSpec module ctx st k src base offset := by
  have hiff := storeToMemory_isSome_iff module st (effectiveAddress st.regs base offset)
    (k.intoBytes (Visitor.vget st src))
    (by rw [intoBytes_length]; exact storeSize_pos k) hh hs hd3
  rw [intoBytes_length] at hiff
  unfold StoreRangeSpec Visitor.store
  cases hsm : InterpretedInstance.storeToMemory module st
      (effectiveAddress st.regs base offset) (k.intoBytes (Visitor.vget st src)) with
  | none =>
    rw [hsm] at hiff
    simp only [Option.isSome_none, Bool.false_eq_true, false_iff] at hiff
    simp only [hsm]
    refine ⟨by simpa using hiff, fun _ => ⟨trivial, trivial, trivial⟩, fun hro => trivial⟩
  | some st2 =>
    rw [hsm] at hiff
    simp only [Option.isSome_some, true_iff] at hiff
    simp only [hsm, honstore]
    refine ⟨by simpa using hiff, fun hne => absurd rfl hne, fun hro => ?_⟩
    exfalso
    have hk := storeSize_pos k
    unfold rangeWithin at hro hiff
    rcases hiff with h | h <;> omega

/-- Witness for C4 at a concrete input: a 4-byte store at address 40
inside the fixture heap region `[32, 48)`. -/
theorem C4_witness :
    StoreRangeSpec M0 ctxNone st0 StoreKind.u32 (RegImm.imm 3735928559) none 40 :=
  C4_store_range M0 ctxNone st0 StoreKind.u32 (RegImm.imm 3735928559) none 40
    rfl (by decide) (by decide) (by decide) (by decide) (by decide)

/-- All entries of a guest memory buffer are byte values. -/
def byteList (xs : List Nat) : Prop := ∀ b ∈ xs, b < 256

instance (xs : List Nat) : Decidable (byteList xs) := by
  unfold byteList
  infer_instance

/-- Sign-extension of an 8-bit value to a 32-bit bit pattern. -/
def signExtend8 (v : Nat) : Nat := if v < 128 then v else v + (U32 - 256)

/-- Sign-extension of a 16-bit value to a 32-bit bit pattern. -/
def signExtend16 (v : Nat) : Nat := if v < 32768 then v else v + (U32 - 65536)

theorem getMemorySlice_bytes (module : VmModule) (st : InterpretedInstance)
    (addr L : Nat) (bytes : List Nat)
    (h : InterpretedInstance.getMemorySlice module st addr L = some bytes) :
    bytes.length = L ∧
    (byteList module.roData → byteList st.heap → byteList st.stack → byteList bytes) := by
  unfold InterpretedInstance.getMemorySlice sliceGet at h
  simp only [rangeContains, Bool.and_eq_true, decide_eq_true_eq] at h
  split_ifs at h with h1 h2 h3 h4 h5 h6 <;>
    simp only [Option.some.injEq, reduceCtorEq] at h
  · subst h
    refine ⟨by simp; omega, fun hro _ _ b hb => hro b ?_⟩
    exact List.mem_of_mem_drop (List.mem_of_mem_take hb)
  · subst h
    refine ⟨by simp; omega, fun _ hhe _ b hb => hhe b ?_⟩
    exact List.mem_of_mem_drop (List.mem_of_mem_take hb)
  · subst h
    refine ⟨by simp; omega, fun _ _ hst b hb => hst b ?_⟩
    exact List.mem_of_mem_drop (List.mem_of_mem_take hb)


theorem getD_mem_of_lt (l : List Nat) (i : Nat) (h : i < l.length) : l.getD i 0 ∈ l := by
  rw [List.getD_eq_getElem l 0 h]
  exact List.getElem_mem h

theorem loadSize_pos (k : LoadKind) : 1 ≤ k.size := by
  cases k <;> decide

/-- The property stated by claim C5: a load of width `k.size` at the
effective address succeeds exactly when the whole byte range lies inside a
single readable region (read-only, heap, or stack); any failure is a
`Trap` that leaves the registers unchanged; on success the sub-word
signed variants return the sign-extension of the corresponding unsigned
load's value, and the unsigned variants return the zero-extended (bounded)
raw value. -/
def LoadRangeSpec (module : VmModule) (ctx : InterpreterContext)
    (st : InterpretedInstance) (k : LoadKind) (dst : Nat) (base : Option Nat)
    (offset : Nat) : Prop :=
  ((Visitor.load ctx module st k dst base offset).error = none ↔
    (rangeWithin module.memoryConfig.roStart module.memoryConfig.roSize
       (effectiveAddress st.regs base offset) k.size ∨
     rangeWithin module.memoryConfig.heapStart module.memoryConfig.heapSize
       (effectiveAddress st.regs base offset) k.size ∨
     rangeWithin module.memoryConfig.stackStart module.memoryConfig.stackSize
       (effectiveAddress st.regs base offset) k.size)) ∧
  ((Visitor.load ctx module st k dst base offset).error ≠ none →
    (Visitor.load ctx module st k dst base offset).error = some ExecutionError.trap ∧
    (Visitor.load ctx module st k dst base offset).inst.regs = st.regs) ∧
  ((Visitor.load ctx module st LoadKind.u8 dst base offset).error = none →
    (Visitor.load ctx module st LoadKind.u8 dst base offset).inst.regs.getD dst 0 < 256 ∧
    (Visitor.load ctx module st LoadKind.i8 dst base offset).inst.regs.getD dst 0 =
      signExtend8
        ((Visitor.load ctx module st LoadKind.u8 dst base offset).inst.regs.getD dst 0)) ∧
  ((Visitor.load ctx module st LoadKind.u16 dst base offset).error = none →
    (Visitor.load ctx module st LoadKind.u16 dst base offset).inst.regs.getD dst 0 < 65536 ∧
    (Visitor.load ctx module st LoadKind.i16 dst base offset).inst.regs.getD dst 0 =
      signExtend16
        ((Visitor.load ctx module st LoadKind.u16 dst base offset).inst.regs.getD dst 0)) ∧
  ((Visitor.load ctx module st LoadKind.u32 dst base offset).error = none →
    (Visitor.load ctx module st LoadKind.u32 dst base offset).inst.regs.getD dst 0 < U32)

/-- C5: every load instruction reading `L` bytes at the effective address
succeeds iff the whole range `[addr, addr+L)` lies inside a single
readable region (read-only, heap, or stack); on failure it returns `Trap`
and leaves all registers unchanged; on success the sub-word signed
variants (`load_i8`, `load_i16`) sign-extend the loaded value to 32 bits
and the unsigned variants zero-extend it. -/
theorem C5_load_range (module : VmModule) (ctx : InterpreterContext)
    (st : InterpretedInstance) (k : LoadKind) (dst : Nat) (base : Option Nat)
    (offset : Nat)
    (honset : ctx.onSetReg = none) (hdst : dst < st.regs.length)
    (hro : module.roData.length = module.memoryConfig.roSize)
    (hh : st.heap.length = module.memoryConfig.heapSize)
    (hs : st.stack.length = module.memoryConfig.stackSize)
    (hd1 : module.memoryConfig.roStart + module.memoryConfig.roSize ≤
        module.memoryConfig.heapStart ∨
      module.memoryConfig.heapStart + module.memoryConfig.heapSize ≤
        module.memoryConfig.roStart)
    (hd2 : module.memoryConfig.roStart + module.memoryConfig.roSize ≤
        module.memoryConfig.stackStart ∨
      module.memoryConfig.stackStart + module.memoryConfig.stackSize ≤
        module.memoryConfig.roStart)
    (hd3 : module.memoryConfig.heapStart + module.memoryConfig.heapSize ≤
        module.memoryConfig.stackStart ∨
      module.memoryConfig.stackStart + module.memoryConfig.stackSize ≤
        module.memoryConfig.heapStart)
    (hbro : byteList module.roData) (hbh : byteList st.heap)
    (hbs : byteList st.stack) :
    LoadRangeSpec module ctx st k dst base offset := by
  have hiff := getMemorySlice_isSome_iff module st (effectiveAddress st.regs base offset)
    k.size (loadSize_pos k) hro hh hs hd1 hd2 hd3
  unfold LoadRangeSpec
  refine ⟨?_, ?_, ?_, ?_, ?_⟩
  · -- success iff range within a readable region
    unfold Visitor.load
    cases hm : InterpretedInstance.getMemorySlice module st
        (effectiveAddress st.regs base offset) k.size with
    | none =>
      rw [hm] at hiff
      simp only [hm]
      simpa using hiff
    | some bytes =>
      rw [hm] at hiff
      simp only [hm, Visitor.vset, honset]
      simpa using hiff
  · -- failure is a Trap leaving the registers unchanged
    unfold Visitor.load
    cases hm : InterpretedInstance.getMemorySlice module st
        (effectiveAddress st.regs base offset) k.size with
    | none => simp [hm]
    | some bytes => simp [hm, Visitor.vset, honset]
  · -- i8 sign-extends the u8 value
    unfold Visitor.load
    dsimp only [LoadKind.size]
    cases hm : InterpretedInstance.getMemorySlice module st
        (effectiveAddress st.regs base offset) 1 with
    | none => intro h8; simp only [hm] at h8; exact absurd h8 (by simp)
    | some bytes =>
      intro h8
      obtain ⟨hlen, hbytes⟩ := getMemorySlice_bytes module st _ 1 bytes hm
      have hb : bytes.getD 0 0 < 256 :=
        hbytes hbro hbh hbs (bytes.getD 0 0) (getD_mem_of_lt bytes 0 (by omega))
      simp only [hm, Visitor.vset, honset]
      rw [getD_set_self st.regs dst (LoadKind.fromSlice LoadKind.u8 bytes) hdst,
        getD_set_self st.regs dst (LoadKind.fromSlice LoadKind.i8 bytes) hdst]
      refine ⟨hb, ?_⟩
      simp only [LoadKind.fromSlice, signExtend8]
  · -- i16 sign-extends the u16 value
    unfold Visitor.load
    dsimp only [LoadKind.size]
    cases hm : InterpretedInstance.getMemorySlice module st
        (effectiveAddress st.regs base offset) 2 with
    | none => intro h16; simp only [hm] at h16; exact absurd h16 (by simp)
    | some bytes =>
      intro h16
      obtain ⟨hlen, hbytes⟩ := getMemorySlice_bytes module st _ 2 bytes hm
      have hb0 : bytes.getD 0 0 < 256 :=
        hbytes hbro hbh hbs _ (getD_mem_of_lt bytes 0 (by omega))
      have hb1 : bytes.getD 1 0 < 256 :=
        hbytes hbro hbh hbs _ (getD_mem_of_lt bytes 1 (by omega))
      simp only [hm, Visitor.vset, honset]
      rw [getD_set_self st.regs dst (LoadKind.fromSlice LoadKind.u16 bytes) hdst,
        getD_set_self st.regs dst (LoadKind.fromSlice LoadKind.i16 bytes) hdst]
      constructor
      · simp only [LoadKind.fromSlice]
        omega
      · simp only [LoadKind.fromSlice, signExtend16]
  · -- u32 returns a 32-bit value
    unfold Visitor.load
    dsimp only [LoadKind.size]
    cases hm : InterpretedInstance.getMemorySlice module st
        (effectiveAddress st.regs base offset) 4 with
    | none => intro h32; simp only [hm] at h32; exact absurd h32 (by simp)
    | some bytes =>
      intro h32
      obtain ⟨hlen, hbytes⟩ := getMemorySlice_bytes module st _ 4 bytes hm
      have hb : ∀ i : Nat, i < 4 → bytes.getD i 0 < 256 := fun i hi =>
        hbytes hbro hbh hbs _ (getD_mem_of_lt bytes i (by omega))
      simp only [hm, Visitor.vset, honset]
      rw [getD_set_self st.regs dst (LoadKind.fromSlice LoadKind.u32 bytes) hdst]
      have h0 := hb 0 (by omega)
      have h1 := hb 1 (by omega)
      have h2 := hb 2 (by omega)
      have h3 := hb 3 (by omega)
      simp only [LoadKind.fromSlice]; unfold U32
      omega

/-- Witness for C5 at a concrete input: a 2-byte load at address 20 inside
the fixture read-only region `[16, 32)`. -/
theorem C5_witness : LoadRangeSpec M0 ctxNone st0 LoadKind.u16 3 none 20 :=
  C5_load_range M0 ctxNone st0 LoadKind.u16 3 none 20 rfl (by decide) (by decide)
    (by decide) (by decide) (by decide) (by decide) (by decide) (by decide)
    (by decide) (by decide)

theorem unsignedLoad_size (k : StoreKind) : (k.unsignedLoad).size = k.size := by
  cases k <;> rfl

theorem fromSlice_intoBytes (k : StoreKind) (v : Nat) :
    (k.unsignedLoad).fromSlice (k.intoBytes v) = v % 2 ^ (8 * k.size) := by
  cases k <;>
    simp [StoreKind.intoBytes, StoreKind.unsignedLoad, LoadKind.fromSlice,
      StoreKind.size] <;>
    omega

theorem storeToMemory_cases (module : VmModule) (st st2 : InterpretedInstance)
    (addr : Nat) (bytes : List Nat)
    (h : InterpretedInstance.storeToMemory module st addr bytes = some st2) :
    (rangeContains module.memoryConfig.heapStart module.memoryConfig.heapSize addr = true ∧
     addr - module.memoryConfig.heapStart + bytes.length ≤ st.heap.length ∧
     st2 = { st with heap := writeBytes st.heap (addr - module.memoryConfig.heapStart) bytes }) ∨
    (rangeContains module.memoryConfig.heapStart module.memoryConfig.heapSize addr = false ∧
     rangeContains module.memoryConfig.stackStart module.memoryConfig.stackSize addr = true ∧
     addr - module.memoryConfig.stackStart + bytes.length ≤ st.stack.length ∧
     st2 = { st with stack := writeBytes st.stack (addr - module.memoryConfig.stackStart) bytes }) := by
  unfold InterpretedInstance.storeToMemory at h
  dsimp only at h
  split_ifs at h with h1 h2 h3 h4 <;> simp only [Option.some.injEq, reduceCtorEq] at h
  · exact Or.inl ⟨h1, h2, h.symm⟩
  · exact Or.inr ⟨by simp [h1], h3, h4, h.symm⟩

theorem getMemorySlice_of_heap_write (module : VmModule) (st st2 : InterpretedInstance)
    (addr : Nat) (bytes : List Nat) (L : Nat) (hL : bytes.length = L)
    (hheap : st2.heap = writeBytes st.heap (addr - module.memoryConfig.heapStart) bytes)
    (hcont : rangeContains module.memoryConfig.heapStart module.memoryConfig.heapSize
      addr = true)
    (hfit : addr - module.memoryConfig.heapStart + bytes.length ≤ st.heap.length)
    (hd1 : module.memoryConfig.roStart + module.memoryConfig.roSize ≤
        module.memoryConfig.heapStart ∨
      module.memoryConfig.heapStart + module.memoryConfig.heapSize ≤
        module.memoryConfig.roStart) :
    InterpretedInstance.getMemorySlice module st2 addr L = some bytes := by
  have hc := hcont
  simp only [rangeContains, Bool.and_eq_true, decide_eq_true_eq] at hc
  have hnro : rangeContains module.memoryConfig.roStart module.memoryConfig.roSize
      addr = false := by
    simp only [rangeContains, Bool.and_eq_false_iff, decide_eq_false_iff_not]
    omega
  unfold InterpretedInstance.getMemorySlice sliceGet
  dsimp only
  rw [hnro]
  simp only [Bool.false_eq_true, if_false, hcont, if_true]
  rw [hheap]
  rw [if_pos (by rw [writeBytes_length st.heap bytes _ hfit]; omega)]
  rw [← hL, writeBytes_readBack st.heap bytes _ hfit]

theorem getMemorySlice_of_stack_write (module : VmModule) (st st2 : InterpretedInstance)
    (addr : Nat) (bytes : List Nat) (L : Nat) (hL : bytes.length = L)
    (hstack : st2.stack = writeBytes st.stack (addr - module.memoryConfig.stackStart) bytes)
    (hcont : rangeContains module.memoryConfig.stackStart module.memoryConfig.stackSize
      addr = true)
    (hnh : rangeContains module.memoryConfig.heapStart module.memoryConfig.heapSize
      addr = false)
    (hfit : addr - module.memoryConfig.stackStart + bytes.length ≤ st.stack.length)
    (hd2 : module.memoryConfig.roStart + module.memoryConfig.roSize ≤
        module.memoryConfig.stackStart ∨
      module.memoryConfig.stackStart + module.memoryConfig.stackSize ≤
        module.memoryConfig.roStart) :
    InterpretedInstance.getMemorySlice module st2 addr L = some bytes := by
  have hc := hcont
  simp only [rangeContains, Bool.and_eq_true, decide_eq_true_eq] at hc
  have hnro : rangeContains module.memoryConfig.roStart module.memoryConfig.roSize
      addr = false := by
    simp only [rangeContains, Bool.and_eq_false_iff, decide_eq_false_iff_not]
    omega
  unfold InterpretedInstance.getMemorySlice sliceGet
  dsimp only
  rw [hnro]
  simp only [Bool.false_eq_true, if_false, hnh, hcont, if_true]
  rw [hstack]
  rw [if_pos (by rw [writeBytes_length st.stack bytes _ hfit]; omega)]
  rw [← hL, writeBytes_readBack st.stack bytes _ hfit]

/-- The property stated by claim C6: after a successful store of `v` with
width `k.size` at the effective address, an unsigned load of the same
width at the same address (on the post-store state) succeeds and returns
`v` truncated to the store width, zero-extended. -/
def RoundTripSpec (module : VmModule) (ctx : InterpreterContext)
    (st : InterpretedInstance) (k : StoreKind) (v dst : Nat) (base : Option Nat)
    (offset : Nat) : Prop :=
  (Visitor.store ctx module st k (RegImm.imm v) base offset).error = none →
    (Visitor.load ctx module
      (Visitor.store ctx module st k (RegImm.imm v) base offset).inst
      k.unsignedLoad dst base offset).error = none ∧
    (Visitor.load ctx module
      (Visitor.store ctx module st k (RegImm.imm v) base offset).inst
      k.unsignedLoad dst base offset).inst.regs.getD dst 0 = v % 2 ^ (8 * k.size)

/-- C6: for every writable address, value `v` and width `w ∈ {8,16,32}`,
after a successful store of `v` with width `w` a load of the same width at
the same address returns `v` truncated to `w` bits (zero-extended for the
unsigned load variants) — stores and loads both use little-endian byte
order. -/
theorem C6_store_load_round_trip (module : VmModule) (ctx : InterpreterContext)
    (st : InterpretedInstance) (k : StoreKind) (v dst : Nat) (base : Option Nat)
    (offset : Nat)
    (honstore : ctx.onStore = none) (honset : ctx.onSetReg = none)
    (hdst : dst < st.regs.length)
    (hd1 : module.memoryConfig.roStart + module.memoryConfig.roSize ≤
        module.memoryConfig.heapStart ∨
      module.memoryConfig.heapStart + module.memoryConfig.heapSize ≤
        module.memoryConfig.roStart)
    (hd2 : module.memoryConfig.roStart + module.memoryConfig.roSize ≤
        module.memoryConfig.stackStart ∨
      module.memoryConfig.stackStart + module.memoryConfig.stackSize ≤
        module.memoryConfig.roStart) :
    RoundTripSpec module ctx st k v dst base offset := by
  unfold RoundTripSpec
  cases hsm : InterpretedInstance.storeToMemory module st
      (effectiveAddress st.regs base offset) (k.intoBytes (Visitor.vget st (RegImm.imm v))) with
  | none =>
    have hstore_eq : Visitor.store ctx module st k (RegImm.imm v) base offset =
        ⟨st, [], some ExecutionError.trap⟩ := by
      unfold Visitor.store
      simp only [hsm]
    rw [hstore_eq]
    intro hok
    exact absurd hok (by simp)
  | some st2 =>
    have hstore_eq : Visitor.store ctx module st k (RegImm.imm v) base offset =
        ⟨{ st2 with nthInstruction := st2.nthInstruction + 1 }, [], none⟩ := by
      unfold Visitor.store
      simp only [hsm, honstore]
    rw [hstore_eq]
    intro _
    rcases storeToMemory_cases module st st2 _ _ hsm with
      ⟨hcont, hfit, hst2⟩ | ⟨hnh, hcont, hfit, hst2⟩
    · subst hst2
      unfold Visitor.load
      dsimp only
      rw [show LoadKind.size (StoreKind.unsignedLoad k) = k.size from unsignedLoad_size k]
      rw [getMemorySlice_of_heap_write module st _ _
        (k.intoBytes (Visitor.vget st (RegImm.imm v))) k.size (intoBytes_length k _)
        rfl hcont hfit hd1]
      simp only [Visitor.vset, honset]
      refine ⟨trivial, ?_⟩
      rw [getD_set_self st.regs dst _ hdst]
      exact fromSlice_intoBytes k _
    · subst hst2
      unfold Visitor.load
      dsimp only
      rw [show LoadKind.size (StoreKind.unsignedLoad k) = k.size from unsignedLoad_size k]
      rw [getMemorySlice_of_stack_write module st _ _
        (k.intoBytes (Visitor.vget st (RegImm.imm v))) k.size (intoBytes_length k _)
        rfl hcont hnh hfit hd2]
      simp only [Visitor.vset, honset]
      refine ⟨trivial, ?_⟩
      rw [getD_set_self st.regs dst _ hdst]
      exact fromSlice_intoBytes k _

/-- Witness for C6 at a concrete input: a 16-bit store of 70000 at
address 66 inside the fixture stack region `[64, 80)`; the value read
back is 70000 mod 2^16. -/
theorem C6_witness : RoundTripSpec M0 ctxNone st0 StoreKind.u16 70000 2 none 66 :=
  C6_store_load_round_trip M0 ctxNone st0 StoreKind.u16 70000 2 none 66
    rfl rfl (by decide) (by decide) (by decide)
